import Mathlib

/-!
Shallow embedding of the D-Bus message codec of
`src/libsystemd-bus/bus-message.c`.

Buffers are lists of bytes (`List Nat`, each byte < 256).  Machine
integers are `Nat` with explicit `% 2^w` where overflow matters.  C
return codes are `Int` (0 or 1 on success, a negative errno on
failure).  C functions that hand back pointers into a buffer return
offsets or copied byte lists instead.  C's in-place mutation of the
`sd_bus_message` object is modelled by state passing of the `Message`
record.  A result of `none` (in an `Option`-valued operation) models a
crash: an `assert_not_reached` or a NULL-pointer dereference.

Helper code of the repository that is not part of `bus-message.c`
(`bus-type.c`, `bus-signature.c`, `utf8.c`, the name validators and
the constants of `sd-bus.h` / `bus-internal.h`) is modelled from the
specification; each such definition is marked in its doc comment.
-/

namespace BusMessage

/-! ### errno values (Linux `<errno.h>`) -/

def EPERM : Int := 1
def ENOENT : Int := 2
def ENXIO : Int := 6
def ENOMEM : Int := 12
def EBUSY : Int := 16
def EEXIST : Int := 17
def EINVAL : Int := 22
def EBADMSG : Int := 74

/-! ### byte-level helpers -/

def UINT32MAX : Nat := 4294967295

def POW32 : Nat := 4294967296

/-- `ALIGN_TO(x, a)`: round `x` up to the next multiple of `a`. -/
def alignTo (x a : Nat) : Nat := ((x + a - 1) / a) * a

/-- Read a byte at offset `i` (0 outside the buffer). -/
def getByte (l : List Nat) (i : Nat) : Nat := l.getD i 0

/-- The `n` bytes starting at offset `off`. -/
def subBytes (l : List Nat) (off n : Nat) : List Nat := (l.drop off).take n

/-- Overwrite the bytes at `[off, off + bs.length)` with `bs`
(all writes performed by the codec are in range). -/
def writeBytes (l : List Nat) (off : Nat) (bs : List Nat) : List Nat :=
  l.take off ++ bs ++ l.drop (off + bs.length)

def encU16 (v : Nat) : List Nat := [v % 256, v / 256 % 256]

def encU32 (v : Nat) : List Nat :=
  [v % 256, v / 256 % 256, v / 65536 % 256, v / 16777216 % 256]

def encU64 (v : Nat) : List Nat := encU32 (v % POW32) ++ encU32 (v / POW32 % POW32)

def readU16le (l : List Nat) (off : Nat) : Nat :=
  getByte l off + 256 * getByte l (off + 1)

def readU32le (l : List Nat) (off : Nat) : Nat :=
  getByte l off + 256 * getByte l (off + 1) + 65536 * getByte l (off + 2) +
    16777216 * getByte l (off + 3)

def readU64le (l : List Nat) (off : Nat) : Nat :=
  readU32le l off + POW32 * readU32le l (off + 4)

def setU32le (l : List Nat) (off v : Nat) : List Nat := writeBytes l off (encU32 v)

def bswap16 (v : Nat) : Nat := v % 256 * 256 + v / 256 % 256

def bswap32 (v : Nat) : Nat :=
  v % 256 * 16777216 + v / 256 % 256 * 65536 + v / 65536 % 256 * 256 +
    v / 16777216 % 256

def bswap64 (v : Nat) : Nat := bswap32 (v % POW32) * POW32 + bswap32 (v / POW32 % POW32)

/-! ### constants of `sd-bus.h` / `bus-internal.h` (headers not in the
repository snapshot; values modelled from the spec) -/

/-- Modelled from the spec: message type codes 1..4; 0 is invalid. -/
def SD_BUS_MESSAGE_TYPE_METHOD_CALL : Nat := 1
def SD_BUS_MESSAGE_TYPE_METHOD_RETURN : Nat := 2
def SD_BUS_MESSAGE_TYPE_METHOD_ERROR : Nat := 3
def SD_BUS_MESSAGE_TYPE_SIGNAL : Nat := 4
def SD_BUS_MESSAGE_TYPE_INVALID : Nat := 0

/-- Modelled from the spec: header flag bit 0 is no-reply-expected. -/
def SD_BUS_MESSAGE_NO_REPLY_EXPECTED : Nat := 1

/-- D-Bus type codes, as ASCII byte values. -/
def SD_BUS_TYPE_BYTE : Nat := 121
def SD_BUS_TYPE_BOOLEAN : Nat := 98
def SD_BUS_TYPE_INT16 : Nat := 110
def SD_BUS_TYPE_UINT16 : Nat := 113
def SD_BUS_TYPE_INT32 : Nat := 105
def SD_BUS_TYPE_UINT32 : Nat := 117
def SD_BUS_TYPE_INT64 : Nat := 120
def SD_BUS_TYPE_UINT64 : Nat := 116
def SD_BUS_TYPE_DOUBLE : Nat := 100
def SD_BUS_TYPE_STRING : Nat := 115
def SD_BUS_TYPE_OBJECT_PATH : Nat := 111
def SD_BUS_TYPE_SIGNATURE : Nat := 103
def SD_BUS_TYPE_UNIX_FD : Nat := 104
def SD_BUS_TYPE_ARRAY : Nat := 97
def SD_BUS_TYPE_VARIANT : Nat := 118
def SD_BUS_TYPE_STRUCT : Nat := 114
def SD_BUS_TYPE_STRUCT_BEGIN : Nat := 40
def SD_BUS_TYPE_STRUCT_END : Nat := 41
def SD_BUS_TYPE_DICT_ENTRY : Nat := 101
def SD_BUS_TYPE_DICT_ENTRY_BEGIN : Nat := 123
def SD_BUS_TYPE_DICT_ENTRY_END : Nat := 125

/-- Header field codes (spec section 4.5 table). -/
def SD_BUS_MESSAGE_HEADER_PATH : Nat := 1
def SD_BUS_MESSAGE_HEADER_INTERFACE : Nat := 2
def SD_BUS_MESSAGE_HEADER_MEMBER : Nat := 3
def SD_BUS_MESSAGE_HEADER_ERROR_NAME : Nat := 4
def SD_BUS_MESSAGE_HEADER_REPLY_SERIAL : Nat := 5
def SD_BUS_MESSAGE_HEADER_DESTINATION : Nat := 6
def SD_BUS_MESSAGE_HEADER_SENDER : Nat := 7
def SD_BUS_MESSAGE_HEADER_SIGNATURE : Nat := 8
def SD_BUS_MESSAGE_HEADER_UNIX_FDS : Nat := 9

/-- `'l'`: the machine is modelled as little-endian. -/
def SD_BUS_NATIVE_ENDIAN : Nat := 108
/-- `'B'`. -/
def SD_BUS_REVERSE_ENDIAN : Nat := 66

/-- Modelled from the spec: `BUS_CONTAINER_DEPTH` of `bus-internal.h`;
the spec's depth bound is 64 (64 opens succeed, the 65th on parse
fails). -/
def BUS_CONTAINER_DEPTH : Nat := 64

/-- Modelled from the spec: `BUS_ARRAY_MAX_SIZE` of `bus-internal.h`,
64 MiB. -/
def BUS_ARRAY_MAX_SIZE : Nat := 67108864

/-! ### `bus-type.c` (not in the snapshot; modelled from the spec's
type table, section 4.2) -/

/-- Modelled from the spec: the basic type codes (glossary: byte, bool,
int16/32/64, uint16/32/64, double, string, object path, signature,
unix fd). -/
def bus_type_is_basic (t : Nat) : Bool :=
  t = SD_BUS_TYPE_BYTE ∨ t = SD_BUS_TYPE_BOOLEAN ∨ t = SD_BUS_TYPE_INT16 ∨
  t = SD_BUS_TYPE_UINT16 ∨ t = SD_BUS_TYPE_INT32 ∨ t = SD_BUS_TYPE_UINT32 ∨
  t = SD_BUS_TYPE_INT64 ∨ t = SD_BUS_TYPE_UINT64 ∨ t = SD_BUS_TYPE_DOUBLE ∨
  t = SD_BUS_TYPE_STRING ∨ t = SD_BUS_TYPE_OBJECT_PATH ∨
  t = SD_BUS_TYPE_SIGNATURE ∨ t = SD_BUS_TYPE_UNIX_FD

/-- Modelled from the spec: natural alignment per type code
(section 4.2 table; containers: array 4, variant 1, struct and
dict-entry 8); `-EINVAL` for an unknown code. -/
def bus_type_get_alignment (t : Nat) : Int :=
  if t = SD_BUS_TYPE_BYTE ∨ t = SD_BUS_TYPE_SIGNATURE ∨ t = SD_BUS_TYPE_VARIANT then 1
  else if t = SD_BUS_TYPE_INT16 ∨ t = SD_BUS_TYPE_UINT16 then 2
  else if t = SD_BUS_TYPE_BOOLEAN ∨ t = SD_BUS_TYPE_INT32 ∨ t = SD_BUS_TYPE_UINT32 ∨
          t = SD_BUS_TYPE_STRING ∨ t = SD_BUS_TYPE_OBJECT_PATH ∨
          t = SD_BUS_TYPE_UNIX_FD ∨ t = SD_BUS_TYPE_ARRAY then 4
  else if t = SD_BUS_TYPE_INT64 ∨ t = SD_BUS_TYPE_UINT64 ∨ t = SD_BUS_TYPE_DOUBLE ∨
          t = SD_BUS_TYPE_STRUCT_BEGIN ∨ t = SD_BUS_TYPE_DICT_ENTRY_BEGIN then 8
  else -EINVAL

/-- Modelled from the spec: fixed wire sizes per basic type code
(section 4.2 table); `-EINVAL` for others. -/
def bus_type_get_size (t : Nat) : Int :=
  if t = SD_BUS_TYPE_BYTE then 1
  else if t = SD_BUS_TYPE_INT16 ∨ t = SD_BUS_TYPE_UINT16 then 2
  else if t = SD_BUS_TYPE_BOOLEAN ∨ t = SD_BUS_TYPE_INT32 ∨ t = SD_BUS_TYPE_UINT32 ∨
          t = SD_BUS_TYPE_UNIX_FD then 4
  else if t = SD_BUS_TYPE_INT64 ∨ t = SD_BUS_TYPE_UINT64 ∨ t = SD_BUS_TYPE_DOUBLE then 8
  else -EINVAL

/-! ### `bus-signature.c` (not in the snapshot; grammar modelled from
the spec: a signature is a sequence of complete types; a complete type
is a basic code, `v`, `a` followed by a complete type, `(…)` around a
sequence of complete types, or `{…}` around a basic key and one
complete value) -/

/-- Modelled from the spec: may a type code start a dict-entry key
(basic types only). -/
def basicKeyCode (t : Nat) : Bool := bus_type_is_basic t

/-- Modelled from the spec: length of one complete type (`seqMode =
false`), or of a sequence of complete types up to and including the
closing byte `close` (`seqMode = true`).  Fuel-bounded; the wrappers
supply enough fuel for any input. -/
def sigLen (fuel : Nat) (seqMode : Bool) (close : Nat) (s : List Nat) : Option Nat :=
  match fuel with
  | 0 => none
  | fuel + 1 =>
    if seqMode then
      match s with
      | [] => none
      | c :: _ =>
        if c = close then some 1
        else
          match sigLen fuel false 0 s with
          | none => none
          | some n =>
            match sigLen fuel true close (s.drop n) with
            | none => none
            | some k => some (n + k)
    else
      match s with
      | [] => none
      | c :: r =>
        if bus_type_is_basic c ∨ c = SD_BUS_TYPE_VARIANT then some 1
        else if c = SD_BUS_TYPE_ARRAY then
          match sigLen fuel false 0 r with
          | none => none
          | some n => some (1 + n)
        else if c = SD_BUS_TYPE_STRUCT_BEGIN then
          match sigLen fuel true SD_BUS_TYPE_STRUCT_END r with
          | none => none
          | some n => some (1 + n)
        else if c = SD_BUS_TYPE_DICT_ENTRY_BEGIN then
          match r with
          | [] => none
          | k :: r2 =>
            if basicKeyCode k then
              match sigLen fuel false 0 r2 with
              | none => none
              | some n =>
                if getByte (r2.drop n) 0 = SD_BUS_TYPE_DICT_ENTRY_END then
                  some (n + 3)
                else none
            else none
        else none

/-- Modelled from the spec: `signature_element_length` — the length of
the single complete type at the start of `s`. -/
def signature_element_length (s : List Nat) : Option Nat :=
  sigLen (2 * s.length + 4) false 0 s

/-- Modelled from the spec: `signature_is_single` — `s` is exactly one
complete type. -/
def signature_is_single (s : List Nat) : Bool :=
  signature_element_length s == some s.length

/-- Modelled from the spec: `signature_is_pair` — a basic key code
followed by exactly one complete type. -/
def signature_is_pair (s : List Nat) : Bool :=
  match s with
  | [] => false
  | c :: r => basicKeyCode c && (signature_element_length r == some r.length)

/-- Modelled from the spec: one pass of `signature_is_valid`'s
sequence check (fuel-bounded). -/
def sigSeqAll (fuel : Nat) (allowDict : Bool) (s : List Nat) : Bool :=
  match fuel with
  | 0 => false
  | fuel + 1 =>
    match s with
    | [] => true
    | c :: _ =>
      if ¬allowDict ∧ c = SD_BUS_TYPE_DICT_ENTRY_BEGIN then false
      else
        match signature_element_length s with
        | none => false
        | some n => sigSeqAll fuel allowDict (s.drop n)

/-- Modelled from the spec: `signature_is_valid` — a sequence of
complete types; dict entries at the outermost level only when
`allowDict`. -/
def signature_is_valid (s : List Nat) (allowDict : Bool) : Bool :=
  sigSeqAll (s.length + 1) allowDict s

/-! ### `utf8.c` and the name validators (not in the snapshot;
modelled from the spec, which consumes them as black-box predicates) -/

/-- Modelled from the spec: `utf8_is_valid` — RFC 3629 UTF-8 byte
sequences (no overlongs, no surrogates, ≤ U+10FFFF). -/
def utf8_is_valid : List Nat → Bool
  | [] => true
  | c :: r =>
    if c < 128 then utf8_is_valid r
    else if c < 194 then false
    else if c < 224 then
      match r with
      | c1 :: r1 => (128 ≤ c1 && c1 < 192) && utf8_is_valid r1
      | [] => false
    else if c < 240 then
      match r with
      | c1 :: c2 :: r2 =>
        (if c = 224 then 160 ≤ c1 && c1 < 192
         else if c = 237 then 128 ≤ c1 && c1 < 160
         else 128 ≤ c1 && c1 < 192) &&
        (128 ≤ c2 && c2 < 192) && utf8_is_valid r2
      | _ => false
    else if c < 245 then
      match r with
      | c1 :: c2 :: c3 :: r3 =>
        (if c = 240 then 144 ≤ c1 && c1 < 192
         else if c = 244 then 128 ≤ c1 && c1 < 144
         else 128 ≤ c1 && c1 < 192) &&
        (128 ≤ c2 && c2 < 192) && (128 ≤ c3 && c3 < 192) && utf8_is_valid r3
      | _ => false
    else false

/-- Modelled from the spec: a character legal inside an object-path
element: `[A-Za-z0-9_]`. -/
def pathCharOk (c : Nat) : Bool :=
  (48 ≤ c && c ≤ 57) || (65 ≤ c && c ≤ 90) || (97 ≤ c && c ≤ 122) || c = 95

/-- No two adjacent `'/'` bytes. -/
def noDoubleSlash : List Nat → Bool
  | a :: b :: r => !(a = 47 && b = 47) && noDoubleSlash (b :: r)
  | _ => true

/-- Modelled from the spec: `object_path_is_valid` — `"/"` alone, or
`'/'`-separated nonempty elements of `[A-Za-z0-9_]`, starting with
`'/'`, not ending with `'/'`. -/
def object_path_is_valid (s : List Nat) : Bool :=
  match s with
  | [] => false
  | [c] => c = 47
  | c :: r =>
    c = 47 && r.all (fun x => pathCharOk x || x = 47) &&
      noDoubleSlash (c :: r) && !(r.getLast? == some 47)

/-- Modelled from the spec: a letter or `'_'`. -/
def nameLetterOk (c : Nat) : Bool :=
  (65 ≤ c && c ≤ 90) || (97 ≤ c && c ≤ 122) || c = 95

/-- A character legal inside a D-Bus name element. -/
def nameCharOk (c : Nat) : Bool := nameLetterOk c || (48 ≤ c && c ≤ 57)

/-- Split a byte list on `'.'` (46). -/
def splitDots : List Nat → List (List Nat)
  | [] => [[]]
  | c :: r =>
    if c = 46 then [] :: splitDots r
    else
      match splitDots r with
      | e :: es => (c :: e) :: es
      | [] => [[c]]

/-- A nonempty name element starting with a letter or underscore. -/
def validNameElement (s : List Nat) : Bool :=
  match s with
  | [] => false
  | c :: r => nameLetterOk c && r.all nameCharOk

/-- Modelled from the spec: `interface_name_is_valid` — at least two
dot-separated valid elements, at most 255 bytes. -/
def interface_name_is_valid (s : List Nat) : Bool :=
  s.length ≤ 255 && (splitDots s).length ≥ 2 && (splitDots s).all validNameElement

/-- Modelled from the spec: `member_name_is_valid` — one valid
element, at most 255 bytes. -/
def member_name_is_valid (s : List Nat) : Bool :=
  s.length ≤ 255 && validNameElement s

/-- Modelled from the spec: `error_name_is_valid` — same shape as an
interface name. -/
def error_name_is_valid (s : List Nat) : Bool := interface_name_is_valid s

/-- A bus-name element character (also allows `'-'`). -/
def busNameCharOk (c : Nat) : Bool := nameCharOk c || c = 45

/-- Modelled from the spec: `service_name_is_valid` — a unique name
`:`-prefixed with digit-friendly elements, or a well-known name of at
least two valid elements. -/
def service_name_is_valid (s : List Nat) : Bool :=
  match s with
  | [] => false
  | c :: r =>
    s.length ≤ 255 &&
      (if c = 58 then
        (splitDots r).length ≥ 2 &&
          (splitDots r).all (fun e => !e.isEmpty && e.all busNameCharOk)
      else
        (splitDots s).length ≥ 2 &&
          (splitDots s).all (fun e =>
            match e with
            | [] => false
            | d :: e' => (nameLetterOk d || d = 45) && e'.all busNameCharOk))

/-! ### data model (`sd_bus_message`, `struct bus_container`) -/

/-- `struct bus_container`: `array_size` is the body offset of the
array's u32 length prefix (a rebased pointer in C); `beginOff` is the
`begin` field. -/
structure BusContainer where
  enclosing : Nat
  signature : List Nat
  index : Nat
  array_size : Option Nat
  beginOff : Nat
deriving DecidableEq

/-- `sd_bus_error`: name and message strings (NULL = `none`). -/
structure BusError where
  name : Option (List Nat)
  message : Option (List Nat)
deriving DecidableEq

/-- Modelled from the spec: `sd_bus_error_is_set` (bus-error.c is not
in the snapshot) — the error has a name. -/
def sd_bus_error_is_set (e : BusError) : Bool := e.name.isSome

/-- `sd_bus_message`.  Header scalars are held directly (`htype`,
`flags`, `version`, `serial`); `fields_size`/`body_size` are the
lengths of `fields`/`body`; `bswap` records that the wire endianness
differs from the (little-endian) host; quick-access pointers hold the
pointed-to byte strings.  Reference counting, credentials, fd lists
and the iovec view carry no claim content and are omitted
(`n_fds` is kept for `bus_message_seal`). -/
structure Message where
  htype : Nat
  flags : Nat
  version : Nat
  serial : Nat
  bswap : Bool
  fields : List Nat
  body : List Nat
  sealed : Bool
  rindex : Nat
  root_container : BusContainer
  containers : List BusContainer
  reply_serial : Nat
  path : Option (List Nat)
  interface : Option (List Nat)
  member : Option (List Nat)
  destination : Option (List Nat)
  sender : Option (List Nat)
  error_name : Option (List Nat)
  error_message : Option (List Nat)
  dont_send : Bool
  n_fds : Nat
deriving DecidableEq

/-- `BUS_MESSAGE_SERIAL`. -/
def BUS_MESSAGE_SERIAL (m : Message) : Nat :=
  if m.bswap then bswap32 m.serial else m.serial

/-- `BUS_MESSAGE_BSWAP16`. -/
def BUS_MESSAGE_BSWAP16 (m : Message) (v : Nat) : Nat := if m.bswap then bswap16 v else v

/-- `BUS_MESSAGE_BSWAP32`. -/
def BUS_MESSAGE_BSWAP32 (m : Message) (v : Nat) : Nat := if m.bswap then bswap32 v else v

/-- `BUS_MESSAGE_BSWAP64`. -/
def BUS_MESSAGE_BSWAP64 (m : Message) (v : Nat) : Nat := if m.bswap then bswap64 v else v

/-- `message_get_container`: top of the container stack, or the root. -/
def message_get_container (m : Message) : BusContainer :=
  match m.containers.getLast? with
  | some c => c
  | none => m.root_container

/-- Write back the current container (the C code mutates it through
the pointer `message_get_container` returned). -/
def message_set_container (m : Message) (c : BusContainer) : Message :=
  match m.containers with
  | [] => { m with root_container := c }
  | _ => { m with containers := m.containers.dropLast ++ [c] }

/-- `c->signature[c->index]` (0 = NUL / absent). -/
def sigAt (c : BusContainer) : Nat := getByte c.signature c.index

/-- Truncation `c->signature[c->index] = 0` of a tentatively extended
signature. -/
def truncSig (c : BusContainer) : BusContainer :=
  { c with signature := c.signature.take c.index }

/-! ### buffer manager -/

/-- `buffer_extend`: grow a region to `align_up(size, align) + extend`,
zero the padding, refuse to grow past `2^32 - 1`; returns the new
region and the offset of the appended space (the fresh bytes are
zeroed here; callers overwrite them with `writeBytes`). -/
def buffer_extend (p : List Nat) (align ext : Nat) : Option (List Nat × Nat) :=
  let start := alignTo p.length align
  let n := start + ext
  if n > UINT32MAX then none
  else some (p ++ List.replicate (start - p.length) 0 ++ List.replicate ext 0, start)

/-- `message_extend_fields` (quick-access pointer rebasing is a no-op
on the value model). -/
def message_extend_fields (m : Message) (align sz : Nat) : Option (Message × Nat) :=
  match buffer_extend m.fields align sz with
  | none => none
  | some (f, start) => some ({ m with fields := f }, start)

/-- `message_extend_body`: grow the body and add the grown amount to
the u32 length slot of every open array frame. -/
def message_extend_body (m : Message) (align sz : Nat) : Option (Message × Nat) :=
  match buffer_extend m.body align sz with
  | none => none
  | some (body1, start) =>
    let added := body1.length - m.body.length
    let body2 := m.containers.foldl
      (fun b c =>
        match c.array_size with
        | some off => setU32le b off ((readU32le b off + added) % POW32)
        | none => b) body1
    some ({ m with body := body2 }, start)

/-! ### header-field appenders -/

/-- `message_append_field_string`: 8-aligned
`[h, 1, type, 0] ++ u32 len ++ s ++ [0]`. -/
def message_append_field_string (m : Message) (h t : Nat) (s : List Nat) :
    Message × Int :=
  let l := s.length
  if l > UINT32MAX then (m, -EINVAL)
  else
    match message_extend_fields m 8 (4 + 4 + l + 1) with
    | none => (m, -ENOMEM)
    | some (m1, off) =>
      ({ m1 with fields :=
          writeBytes m1.fields off ([h, 1, t, 0] ++ encU32 l ++ s ++ [0]) }, 0)

/-- `message_append_field_signature`: 8-aligned
`[h, 1, 'g', 0, len] ++ s ++ [0]`; the length must fit a byte. -/
def message_append_field_signature (m : Message) (h : Nat) (s : List Nat) :
    Message × Int :=
  let l := s.length
  if l > 255 then (m, -EINVAL)
  else
    match message_extend_fields m 8 (4 + 1 + l + 1) with
    | none => (m, -ENOMEM)
    | some (m1, off) =>
      ({ m1 with fields :=
          writeBytes m1.fields off ([h, 1, SD_BUS_TYPE_SIGNATURE, 0, l] ++ s ++ [0]) }, 0)

/-- `message_append_field_uint32`: 8-aligned `[h, 1, 'u', 0] ++ u32 x`. -/
def message_append_field_uint32 (m : Message) (h x : Nat) : Message × Int :=
  match message_extend_fields m 8 (4 + 4) with
  | none => (m, -ENOMEM)
  | some (m1, off) =>
    ({ m1 with fields :=
        writeBytes m1.fields off ([h, 1, SD_BUS_TYPE_UINT32, 0] ++ encU32 x) }, 0)

/-! ### writer: `message_append_basic` -/

/-- A basic value handed through the `void *p` argument: a machine
integer's bit pattern, or a NUL-terminated byte string (without its
NUL). -/
inductive BasicVal where
  | num (v : Nat)
  | str (s : List Nat)
deriving DecidableEq

/-- The truncation of a tentatively extended signature on an append
failure (`if (e) c->signature[c->index] = 0`). -/
def append_fail_restore (c : BusContainer) (e : Bool) (mm : Message) : Message :=
  if e then message_set_container mm (truncSig c) else mm

/-- The wire encoding chosen by `message_append_basic`'s switch:
(alignment, size, bytes).  For SIGNATURE the length prefix is written
as `sz - 1` (one more than the string length), exactly as in the C
code.  `none` models the crash of `memcpy(…, NULL, …)` on a NULL
pointer for a fixed-size type (or a string value passed for a
fixed-size type, which the C code would reinterpret). -/
def basic_wire_enc (t : Nat) (p : Option BasicVal) : Option (Nat × Nat × List Nat) :=
  if t = SD_BUS_TYPE_STRING ∨ t = SD_BUS_TYPE_OBJECT_PATH then
    match p with
    | some (.str s) => some (4, 4 + s.length + 1, encU32 s.length ++ s ++ [0])
    | _ => none
  else if t = SD_BUS_TYPE_SIGNATURE then
    match p with
    | some (.str s) =>
      some (1, 1 + s.length + 1, [(1 + s.length + 1 - 1) % 256] ++ s ++ [0])
    | _ => none
  else if t = SD_BUS_TYPE_BOOLEAN then
    match p with
    | some (.num v) => some (4, 4, encU32 (if v % POW32 ≠ 0 then 1 else 0))
    | _ => none
  else
    match p with
    | some (.num v) =>
      some ((bus_type_get_alignment t).toNat, (bus_type_get_size t).toNat,
        if (bus_type_get_size t).toNat = 1 then [v % 256]
        else if (bus_type_get_size t).toNat = 2 then encU16 v
        else if (bus_type_get_size t).toNat = 4 then encU32 v
        else encU64 v)
    | _ => none

/-- Second half of `message_append_basic`, after the signature
check/extension: compute alignment, size and wire bytes, grow the
body, write, and advance the signature index.  `c` is the current
container (already holding any tentative extension), `e` records that
the signature was extended. -/
def message_append_basic_write (m : Message) (c : BusContainer) (e : Bool)
    (t : Nat) (p : Option BasicVal) : Option (Message × Int) :=
  if (t = SD_BUS_TYPE_STRING ∨ t = SD_BUS_TYPE_OBJECT_PATH ∨
      t = SD_BUS_TYPE_SIGNATURE) ∧ p = none then
    some (append_fail_restore c e m, -EINVAL)
  else
    match basic_wire_enc t p with
    | none => none
    | some (align, sz, bytes) =>
      match message_extend_body m align sz with
      | none => some (append_fail_restore c e m, -ENOMEM)
      | some (m2, off) =>
        if c.enclosing ≠ SD_BUS_TYPE_ARRAY then
          some (message_set_container { m2 with body := writeBytes m2.body off bytes }
            { c with index := c.index + 1 }, 0)
        else some ({ m2 with body := writeBytes m2.body off bytes }, 0)

/-- `message_append_basic`. -/
def message_append_basic (m : Message) (t : Nat) (p : Option BasicVal) :
    Option (Message × Int) :=
  if m.sealed then some (m, -EPERM)
  else if ¬bus_type_is_basic t then some (m, -EINVAL)
  else
    let c0 := message_get_container m
    if sigAt c0 ≠ 0 then
      if sigAt c0 ≠ t then some (m, - ENXIO)
      else message_append_basic_write m c0 false t p
    else if c0.enclosing ≠ 0 then some (m, - ENXIO)
    else
      let c1 := { c0 with signature := c0.signature ++ [t] }
      message_append_basic_write (message_set_container m c1) c1 true t p

/-- `sd_bus_message_append_basic` (public wrapper, no `stored`). -/
def sd_bus_message_append_basic (m : Message) (t : Nat) (p : Option BasicVal) :
    Option (Message × Int) :=
  message_append_basic m t p

/-! ### writer: container open / close -/

/-- `startswith(l, p)`. -/
def startswith (l p : List Nat) : Bool := l.take p.length == p

/-- `bus_message_open_array`: emit an 4-aligned u32 size placeholder,
pad to the element alignment, hand back the placeholder's body offset.
On the second growth failure the body size is restored but the array
length slots already bumped by the first growth are not (as in C). -/
def bus_message_open_array (m : Message) (contents : List Nat) :
    Message × Int × Option Nat :=
  let c := message_get_container m
  if ¬signature_is_single contents then (m, -EINVAL, none)
  else
    let alignment := bus_type_get_alignment (getByte contents 0)
    if alignment < 0 then (m, alignment, none)
    else
      let chk : Option (BusContainer × Bool × Nat) :=
        if sigAt c ≠ 0 then
          if sigAt c ≠ SD_BUS_TYPE_ARRAY then none
          else if ¬startswith (c.signature.drop (c.index + 1)) contents then none
          else some (c, false, c.index + 1 + contents.length)
        else if c.enclosing ≠ 0 then none
        else
          let c1 := { c with signature := c.signature ++ SD_BUS_TYPE_ARRAY :: contents }
          some (c1, true, c1.signature.length)
      match chk with
      | none => (m, - ENXIO, none)
      | some (c1, e, nindex) =>
        let m1 := message_set_container m c1
        let saved := m1.body.length
        match message_extend_body m1 4 4 with
        | none =>
          ((if e then message_set_container m1 (truncSig c1) else m1), -ENOMEM, none)
        | some (m2, aOff) =>
          match message_extend_body m2 alignment.toNat 0 with
          | none =>
            let m3 := { m2 with body := m2.body.take saved }
            ((if e then message_set_container m3 (truncSig c1) else m3), -ENOMEM, none)
          | some (m3, _) =>
            let m4 :=
              if c1.enclosing ≠ SD_BUS_TYPE_ARRAY then
                message_set_container m3 { c1 with index := nindex }
              else m3
            ({ m4 with body := setU32le m4.body aOff 0 }, 0, some aOff)

/-- `bus_message_open_variant`: emit `u8 len ++ contents ++ [0]`. -/
def bus_message_open_variant (m : Message) (contents : List Nat) : Message × Int :=
  let c := message_get_container m
  if ¬signature_is_single contents then (m, -EINVAL)
  else if getByte contents 0 = SD_BUS_TYPE_DICT_ENTRY_BEGIN then (m, -EINVAL)
  else
    let chk : Option (BusContainer × Bool) :=
      if sigAt c ≠ 0 then
        if sigAt c ≠ SD_BUS_TYPE_VARIANT then none else some (c, false)
      else if c.enclosing ≠ 0 then none
      else some ({ c with signature := c.signature ++ [SD_BUS_TYPE_VARIANT] }, true)
    match chk with
    | none => (m, - ENXIO)
    | some (c1, e) =>
      let m1 := message_set_container m c1
      let l := contents.length
      match message_extend_body m1 1 (1 + l + 1) with
      | none => ((if e then message_set_container m1 (truncSig c1) else m1), -ENOMEM)
      | some (m2, off) =>
        let m3 := { m2 with body := writeBytes m2.body off ([l % 256] ++ contents ++ [0]) }
        if c1.enclosing ≠ SD_BUS_TYPE_ARRAY then
          (message_set_container m3 { c1 with index := c1.index + 1 }, 0)
        else (m3, 0)

/-- `bus_message_open_struct`: align the body to 8. -/
def bus_message_open_struct (m : Message) (contents : List Nat) : Message × Int :=
  let c := message_get_container m
  if ¬signature_is_valid contents false then (m, -EINVAL)
  else
    let l := contents.length
    let chk : Option (BusContainer × Bool × Nat) :=
      if sigAt c ≠ 0 then
        if sigAt c ≠ SD_BUS_TYPE_STRUCT_BEGIN then none
        else if ¬startswith (c.signature.drop (c.index + 1)) contents then none
        else if getByte c.signature (c.index + 1 + l) ≠ SD_BUS_TYPE_STRUCT_END then none
        else some (c, false, c.index + 1 + l + 1)
      else if c.enclosing ≠ 0 then none
      else
        let c1 := { c with signature :=
          c.signature ++ SD_BUS_TYPE_STRUCT_BEGIN :: (contents ++ [SD_BUS_TYPE_STRUCT_END]) }
        some (c1, true, c1.signature.length)
    match chk with
    | none => (m, - ENXIO)
    | some (c1, e, nindex) =>
      let m1 := message_set_container m c1
      match message_extend_body m1 8 0 with
      | none => ((if e then message_set_container m1 (truncSig c1) else m1), -ENOMEM)
      | some (m2, _) =>
        if c1.enclosing ≠ SD_BUS_TYPE_ARRAY then
          (message_set_container m2 { c1 with index := nindex }, 0)
        else (m2, 0)

/-- `bus_message_open_dict_entry`: only inside an array; never extends
the signature.  (The C index update is dead code here: the enclosing
frame is an array.) -/
def bus_message_open_dict_entry (m : Message) (contents : List Nat) : Message × Int :=
  let c := message_get_container m
  if ¬signature_is_pair contents then (m, -EINVAL)
  else if c.enclosing ≠ SD_BUS_TYPE_ARRAY then (m, - ENXIO)
  else
    let l := contents.length
    let ok : Bool :=
      sigAt c ≠ 0 &&
      sigAt c = SD_BUS_TYPE_DICT_ENTRY_BEGIN &&
      startswith (c.signature.drop (c.index + 1)) contents &&
      getByte c.signature (c.index + 1 + l) = SD_BUS_TYPE_DICT_ENTRY_END
    if ¬ok then (m, - ENXIO)
    else
      match message_extend_body m 8 0 with
      | none => (m, -ENOMEM)
      | some (m2, _) => (m2, 0)

/-- `sd_bus_message_open_container`.  Note: the build path has no
container-depth check. -/
def sd_bus_message_open_container (m : Message) (t : Nat) (contents : List Nat) :
    Message × Int :=
  if m.sealed then (m, -EPERM)
  else
    let res : Message × Int × Option Nat :=
      if t = SD_BUS_TYPE_ARRAY then bus_message_open_array m contents
      else if t = SD_BUS_TYPE_VARIANT then
        match bus_message_open_variant m contents with
        | (m', r) => (m', r, none)
      else if t = SD_BUS_TYPE_STRUCT then
        match bus_message_open_struct m contents with
        | (m', r) => (m', r, none)
      else if t = SD_BUS_TYPE_DICT_ENTRY then
        match bus_message_open_dict_entry m contents with
        | (m', r) => (m', r, none)
      else (m, -EINVAL, none)
    match res with
    | (m', r, asz) =>
      if r < 0 then (m', r)
      else ({ m' with containers := m'.containers ++ [⟨t, contents, 0, asz, 0⟩] }, 0)

/-- `sd_bus_message_close_container`. -/
def sd_bus_message_close_container (m : Message) : Message × Int :=
  if m.sealed then (m, -EPERM)
  else if m.containers.length = 0 then (m, -EINVAL)
  else
    let c := message_get_container m
    if c.enclosing ≠ SD_BUS_TYPE_ARRAY ∧ sigAt c ≠ 0 then (m, -EINVAL)
    else ({ m with containers := m.containers.dropLast }, 0)

/-! ### reader primitives -/

/-- `buffer_peek`: returns `(r, new rindex, start offset)`; `1` on
success, `-EBADMSG` when the range overruns `sz` or a padding byte in
`[rindex, start)` is nonzero. -/
def buffer_peek (p : List Nat) (sz rindex align nbytes : Nat) : Int × Nat × Nat :=
  let start := alignTo rindex align
  let n := start + nbytes
  if n > sz then (-EBADMSG, rindex, 0)
  else if (List.range' rindex (start - rindex)).all (fun k => getByte p k = 0) then
    (1, n, start)
  else (-EBADMSG, rindex, 0)

/-- `message_end_of_array`. -/
def message_end_of_array (m : Message) (index : Nat) : Bool :=
  let c := message_get_container m
  match c.array_size with
  | none => false
  | some off => index ≥ c.beginOff + BUS_MESSAGE_BSWAP32 m (readU32le m.body off)

/-- `message_peek_body`: `0` at the end of the current array frame,
otherwise `buffer_peek` on the body. -/
def message_peek_body (m : Message) (rindex align nbytes : Nat) : Int × Nat × Nat :=
  if message_end_of_array m rindex then (0, rindex, 0)
  else buffer_peek m.body m.body.length rindex align nbytes

/-- `validate_nul`: no NUL among the first `l` bytes and a NUL right
after them. -/
def validate_nul (q : List Nat) (l : Nat) : Bool :=
  (q.take l).all (fun b => b ≠ 0) && getByte q l = 0

/-- `validate_string`. -/
def validate_string (q : List Nat) (l : Nat) : Bool :=
  validate_nul q l && utf8_is_valid (q.take l)

/-- `validate_signature`. -/
def validate_signature (q : List Nat) (l : Nat) : Bool :=
  validate_nul q l && signature_is_valid (q.take l) true

/-- `validate_object_path`. -/
def validate_object_path (q : List Nat) (l : Nat) : Bool :=
  validate_nul q l && object_path_is_valid (q.take l)

/-- `sd_bus_message_read_basic`.  The result value replaces the `void
*p` out-parameter.  `none` models the `assert_not_reached` abort of
the decode switch, which has no case for `SD_BUS_TYPE_UNIX_FD`. -/
def sd_bus_message_read_basic (m : Message) (t : Nat) :
    Option (Message × Int × Option BasicVal) :=
  if ¬m.sealed then some (m, -EPERM, none)
  else if ¬bus_type_is_basic t then some (m, -EINVAL, none)
  else
    let c := message_get_container m
    if sigAt c = 0 then some (m, 0, none)
    else if sigAt c ≠ t then some (m, - ENXIO, none)
    else
      let advance : Message → Message := fun m3 =>
        if c.enclosing ≠ SD_BUS_TYPE_ARRAY then
          message_set_container m3 { c with index := c.index + 1 }
        else m3
      if t = SD_BUS_TYPE_STRING ∨ t = SD_BUS_TYPE_OBJECT_PATH then
        match message_peek_body m m.rindex 4 4 with
        | (r, ri1, q1) =>
          if r ≤ 0 then some (m, r, none)
          else
            let l := BUS_MESSAGE_BSWAP32 m (readU32le m.body q1)
            match message_peek_body m ri1 1 (l + 1) with
            | (r2, ri2, q2) =>
              if r2 < 0 then some (m, r2, none)
              else if r2 = 0 then some (m, -EBADMSG, none)
              else
                let q := subBytes m.body q2 (l + 1)
                if t = SD_BUS_TYPE_OBJECT_PATH then
                  if ¬validate_object_path q l then some (m, -EBADMSG, none)
                  else some (advance { m with rindex := ri2 }, 1, some (.str (q.take l)))
                else
                  if ¬validate_string q l then some (m, -EBADMSG, none)
                  else some (advance { m with rindex := ri2 }, 1, some (.str (q.take l)))
      else if t = SD_BUS_TYPE_SIGNATURE then
        match message_peek_body m m.rindex 1 1 with
        | (r, ri1, q1) =>
          if r ≤ 0 then some (m, r, none)
          else
            let l := getByte m.body q1
            match message_peek_body m ri1 1 (l + 1) with
            | (r2, ri2, q2) =>
              if r2 < 0 then some (m, r2, none)
              else if r2 = 0 then some (m, -EBADMSG, none)
              else
                let q := subBytes m.body q2 (l + 1)
                if ¬validate_signature q l then some (m, -EBADMSG, none)
                else some (advance { m with rindex := ri2 }, 1, some (.str (q.take l)))
      else
        let align := (bus_type_get_alignment t).toNat
        let sz := (bus_type_get_size t).toNat
        match message_peek_body m m.rindex align sz with
        | (r, ri1, q) =>
          if r ≤ 0 then some (m, r, none)
          else
            let m1 := { m with rindex := ri1 }
            if t = SD_BUS_TYPE_BYTE then
              some (advance m1, 1, some (.num (getByte m.body q)))
            else if t = SD_BUS_TYPE_BOOLEAN then
              some (advance m1, 1, some (.num (if readU32le m.body q ≠ 0 then 1 else 0)))
            else if t = SD_BUS_TYPE_INT16 ∨ t = SD_BUS_TYPE_UINT16 then
              some (advance m1, 1, some (.num (BUS_MESSAGE_BSWAP16 m (readU16le m.body q))))
            else if t = SD_BUS_TYPE_INT32 ∨ t = SD_BUS_TYPE_UINT32 then
              some (advance m1, 1, some (.num (BUS_MESSAGE_BSWAP32 m (readU32le m.body q))))
            else if t = SD_BUS_TYPE_INT64 ∨ t = SD_BUS_TYPE_UINT64 ∨
                    t = SD_BUS_TYPE_DOUBLE then
              some (advance m1, 1, some (.num (BUS_MESSAGE_BSWAP64 m (readU64le m.body q))))
            else none

/-! ### reader: container enter / exit, rewind -/

/-- `bus_message_enter_array`. -/
def bus_message_enter_array (m : Message) (contents : List Nat) :
    Message × Int × Option Nat :=
  let c := message_get_container m
  if ¬signature_is_single contents then (m, -EINVAL, none)
  else
    let alignment := bus_type_get_alignment (getByte contents 0)
    if alignment < 0 then (m, alignment, none)
    else if sigAt c = 0 then (m, 0, none)
    else if sigAt c ≠ SD_BUS_TYPE_ARRAY then (m, - ENXIO, none)
    else if ¬startswith (c.signature.drop (c.index + 1)) contents then (m, - ENXIO, none)
    else
      match message_peek_body m m.rindex 4 4 with
      | (r, ri1, q) =>
        if r ≤ 0 then (m, r, none)
        else if BUS_MESSAGE_BSWAP32 m (readU32le m.body q) > BUS_ARRAY_MAX_SIZE then
          (m, -EBADMSG, none)
        else
          match message_peek_body m ri1 alignment.toNat 0 with
          | (r2, ri2, _) =>
            if r2 < 0 then (m, r2, none)
            else if r2 = 0 then (m, -EBADMSG, none)
            else
              let m1 :=
                if c.enclosing ≠ SD_BUS_TYPE_ARRAY then
                  message_set_container m { c with index := c.index + 1 + contents.length }
                else m
              ({ m1 with rindex := ri2 }, 1, some q)

/-- `bus_message_enter_variant`. -/
def bus_message_enter_variant (m : Message) (contents : List Nat) : Message × Int :=
  let c := message_get_container m
  if ¬signature_is_single contents then (m, -EINVAL)
  else if getByte contents 0 = SD_BUS_TYPE_DICT_ENTRY_BEGIN then (m, -EINVAL)
  else if sigAt c = 0 then (m, 0)
  else if sigAt c ≠ SD_BUS_TYPE_VARIANT then (m, - ENXIO)
  else
    match message_peek_body m m.rindex 1 1 with
    | (r, ri1, q1) =>
      if r ≤ 0 then (m, r)
      else
        let l := getByte m.body q1
        match message_peek_body m ri1 1 (l + 1) with
        | (r2, ri2, q2) =>
          if r2 < 0 then (m, r2)
          else if r2 = 0 then (m, -EBADMSG)
          else
            let s := subBytes m.body q2 (l + 1)
            if ¬validate_signature s l then (m, -EBADMSG)
            else if s.take l ≠ contents then (m, - ENXIO)
            else
              let m1 :=
                if c.enclosing ≠ SD_BUS_TYPE_ARRAY then
                  message_set_container m { c with index := c.index + 1 }
                else m
              ({ m1 with rindex := ri2 }, 1)

/-- `bus_message_enter_struct`. -/
def bus_message_enter_struct (m : Message) (contents : List Nat) : Message × Int :=
  let c := message_get_container m
  if ¬signature_is_valid contents false then (m, -EINVAL)
  else if sigAt c = 0 then (m, 0)
  else
    let l := contents.length
    if sigAt c ≠ SD_BUS_TYPE_STRUCT_BEGIN ∨
       ¬startswith (c.signature.drop (c.index + 1)) contents ∨
       getByte c.signature (c.index + 1 + l) ≠ SD_BUS_TYPE_STRUCT_END then (m, - ENXIO)
    else
      match message_peek_body m m.rindex 8 0 with
      | (r, ri1, _) =>
        if r ≤ 0 then (m, r)
        else
          let m1 := { m with rindex := ri1 }
          if c.enclosing ≠ SD_BUS_TYPE_ARRAY then
            (message_set_container m1 { c with index := c.index + 1 + l + 1 }, 1)
          else (m1, 1)

/-- `bus_message_enter_dict_entry`.  (The C index update is dead code:
the enclosing frame is an array.) -/
def bus_message_enter_dict_entry (m : Message) (contents : List Nat) : Message × Int :=
  let c := message_get_container m
  if ¬signature_is_pair contents then (m, -EINVAL)
  else if c.enclosing ≠ SD_BUS_TYPE_ARRAY then (m, - ENXIO)
  else if sigAt c = 0 then (m, 0)
  else
    let l := contents.length
    if sigAt c ≠ SD_BUS_TYPE_DICT_ENTRY_BEGIN ∨
       ¬startswith (c.signature.drop (c.index + 1)) contents ∨
       getByte c.signature (c.index + 1 + l) ≠ SD_BUS_TYPE_DICT_ENTRY_END then (m, - ENXIO)
    else
      match message_peek_body m m.rindex 8 0 with
      | (r, ri1, _) =>
        if r ≤ 0 then (m, r)
        else ({ m with rindex := ri1 }, 1)

/-- `sd_bus_message_enter_container`: the parse path enforces
`BUS_CONTAINER_DEPTH` before anything else. -/
def sd_bus_message_enter_container (m : Message) (t : Nat) (contents : List Nat) :
    Message × Int :=
  if ¬m.sealed then (m, -EPERM)
  else if m.containers.length ≥ BUS_CONTAINER_DEPTH then (m, -EBADMSG)
  else
    let c := message_get_container m
    if sigAt c = 0 then (m, 0)
    else
      let res : Message × Int × Option Nat :=
        if t = SD_BUS_TYPE_ARRAY then bus_message_enter_array m contents
        else if t = SD_BUS_TYPE_VARIANT then
          match bus_message_enter_variant m contents with
          | (m', r) => (m', r, none)
        else if t = SD_BUS_TYPE_STRUCT then
          match bus_message_enter_struct m contents with
          | (m', r) => (m', r, none)
        else if t = SD_BUS_TYPE_DICT_ENTRY then
          match bus_message_enter_dict_entry m contents with
          | (m', r) => (m', r, none)
        else (m, -EINVAL, none)
      match res with
      | (m', r, asz) =>
        if r ≤ 0 then (m', r)
        else ({ m' with containers := m'.containers ++ [⟨t, contents, 0, asz, m'.rindex⟩] }, 1)

/-- `sd_bus_message_exit_container`: for an ARRAY frame verify
`begin + length == rindex` (`-EBUSY` otherwise); for others the inner
signature must be exhausted; pop on success.  `none` models the NULL
dereference of `c->array_size` on an ARRAY frame without a length
slot. -/
def sd_bus_message_exit_container (m : Message) : Option (Message × Int) :=
  if ¬m.sealed then some (m, -EPERM)
  else if m.containers.length = 0 then some (m, -EINVAL)
  else
    let c := message_get_container m
    if c.enclosing = SD_BUS_TYPE_ARRAY then
      match c.array_size with
      | none => none
      | some off =>
        let l := BUS_MESSAGE_BSWAP32 m (readU32le m.body off)
        if c.beginOff + l ≠ m.rindex then some (m, -EBUSY)
        else some ({ m with containers := m.containers.dropLast }, 1)
    else
      if sigAt c ≠ 0 then some (m, -EINVAL)
      else some ({ m with containers := m.containers.dropLast }, 1)

/-- `reset_containers`. -/
def reset_containers (m : Message) : Message :=
  { m with containers := [],
           root_container := { m.root_container with index := 0 } }

/-- `sd_bus_message_rewind`. -/
def sd_bus_message_rewind (m : Message) (complete : Bool) : Message × Int :=
  if ¬m.sealed then (m, -EPERM)
  else if complete then
    let m1 := { reset_containers m with rindex := 0 }
    (m1, if (message_get_container m1).signature.isEmpty then 0 else 1)
  else
    let c := message_get_container m
    let m1 := { message_set_container m { c with index := 0 } with rindex := c.beginOff }
    (m1, if c.signature.isEmpty then 0 else 1)

/-! ### header-field parser -/

/-- `message_peek_fields`: `buffer_peek` over the fields region. -/
def message_peek_fields (m : Message) (ri align nbytes : Nat) : Int × Nat × Nat :=
  buffer_peek m.fields m.fields.length ri align nbytes

/-- `message_peek_field_uint32`: returns `(r, new ri, value)`. -/
def message_peek_field_uint32 (m : Message) (ri : Nat) : Int × Nat × Nat :=
  match message_peek_fields m ri 4 4 with
  | (r, ri1, q) =>
    if r < 0 then (r, ri1, 0)
    else (0, ri1, BUS_MESSAGE_BSWAP32 m (readU32le m.fields q))

/-- `message_peek_field_string`: u32 length + bytes + NUL; validated
by the given predicate (plus the NUL check), or as a UTF-8 string. -/
def message_peek_field_string (m : Message) (validate : Option (List Nat → Bool))
    (ri : Nat) : Int × Nat × List Nat :=
  match message_peek_field_uint32 m ri with
  | (r, ri1, l) =>
    if r < 0 then (r, ri1, [])
    else
      match message_peek_fields m ri1 1 (l + 1) with
      | (r2, ri2, q) =>
        if r2 < 0 then (r2, ri2, [])
        else
          let s := subBytes m.fields q (l + 1)
          match validate with
          | some f =>
            if ¬validate_nul s l then (-EBADMSG, ri2, [])
            else if ¬f (s.take l) then (-EBADMSG, ri2, [])
            else (0, ri2, s.take l)
          | none =>
            if ¬validate_string s l then (-EBADMSG, ri2, [])
            else (0, ri2, s.take l)

/-- `message_peek_field_signature`: u8 length + bytes + NUL. -/
def message_peek_field_signature (m : Message) (ri : Nat) : Int × Nat × List Nat :=
  match message_peek_fields m ri 1 1 with
  | (r, ri1, q1) =>
    if r < 0 then (r, ri1, [])
    else
      let l := getByte m.fields q1
      match message_peek_fields m ri1 1 (l + 1) with
      | (r2, ri2, q2) =>
        if r2 < 0 then (r2, ri2, [])
        else
          let s := subBytes m.fields q2 (l + 1)
          if ¬validate_signature s l then (-EBADMSG, ri2, [])
          else (0, ri2, s.take l)

/-- `message_skip_fields`: walk past the value of signature `sig`
starting at offset `ri` (`array_size = UINT32MAX` means "no array
cutoff", C's `(uint32_t) -1`).  The element-signature buffers the C
code builds with `char sig[l-1]` drop the final byte and are not
NUL-terminated; that defect is modelled by `take (l - 1)` (and, for
the `l = 1` case whose alignment is read from an uninitialized byte,
by byte value 0, which yields `-EINVAL`).  Fuel-bounded; the wrapper
supplies enough fuel for every case exercised here. -/
def message_skip_fields_loop (fuel : Nat) (m : Message)
    (ri original array_size : Nat) (sig : List Nat) : Except Int Nat :=
  match fuel with
  | 0 => .error (-EBADMSG)
  | fuel + 1 =>
    if array_size ≠ UINT32MAX ∧ array_size ≤ ri - original then .ok ri
    else
      match sig with
      | [] => .ok ri
      | t :: sigr =>
        if t = SD_BUS_TYPE_STRING then
          match message_peek_field_string m none ri with
          | (r, ri1, _) =>
            if r < 0 then .error r
            else message_skip_fields_loop fuel m ri1 original array_size sigr
        else if t = SD_BUS_TYPE_OBJECT_PATH then
          match message_peek_field_string m (some object_path_is_valid) ri with
          | (r, ri1, _) =>
            if r < 0 then .error r
            else message_skip_fields_loop fuel m ri1 original array_size sigr
        else if t = SD_BUS_TYPE_SIGNATURE then
          match message_peek_field_signature m ri with
          | (r, ri1, _) =>
            if r < 0 then .error r
            else message_skip_fields_loop fuel m ri1 original array_size sigr
        else if bus_type_is_basic t then
          match message_peek_fields m ri (bus_type_get_alignment t).toNat
              (bus_type_get_size t).toNat with
          | (r, ri1, _) =>
            if r < 0 then .error r
            else message_skip_fields_loop fuel m ri1 original array_size sigr
        else if t = SD_BUS_TYPE_ARRAY then
          match signature_element_length sigr with
          | none => .error (-EINVAL)
          | some l =>
            let sub := sigr.take (l - 1)
            let alignment := bus_type_get_alignment (getByte sub 0)
            if alignment < 0 then .error alignment
            else
              match message_peek_field_uint32 m ri with
              | (r, ri1, nas) =>
                if r < 0 then .error r
                else if nas > BUS_ARRAY_MAX_SIZE then .error (-EBADMSG)
                else
                  match message_peek_fields m ri1 alignment.toNat 0 with
                  | (r2, ri2, _) =>
                    if r2 < 0 then .error r2
                    else
                      match message_skip_fields_loop fuel m ri2 ri2 nas sub with
                      | .error e => .error e
                      | .ok ri3 =>
                        message_skip_fields_loop fuel m ri3 original array_size
                          (sigr.drop l)
        else if t = SD_BUS_TYPE_VARIANT then
          match message_peek_field_signature m ri with
          | (r, ri1, s) =>
            if r < 0 then .error r
            else
              match message_skip_fields_loop fuel m ri1 ri1 UINT32MAX s with
              | .error e => .error e
              | .ok ri2 =>
                message_skip_fields_loop fuel m ri2 original array_size sigr
        else if t = SD_BUS_TYPE_STRUCT ∨ t = SD_BUS_TYPE_DICT_ENTRY then
          match signature_element_length (t :: sigr) with
          | none => .error (-EINVAL)
          | some l =>
            let sub := sigr.take (l - 1)
            match message_skip_fields_loop fuel m ri ri UINT32MAX sub with
            | .error e => .error e
            | .ok ri2 =>
              message_skip_fields_loop fuel m ri2 original array_size
                ((t :: sigr).drop l)
        else .error (-EINVAL)

/-- `message_skip_fields` wrapper: fresh `original_index`. -/
def message_skip_fields (m : Message) (ri array_size : Nat) (sig : List Nat) :
    Except Int Nat :=
  message_skip_fields_loop (m.fields.length + sig.length + 16) m ri ri array_size sig

/-- One pass of `message_parse_fields`'s enumeration loop; reads each
8-aligned entry (u8 field code, signature, value) and populates the
quick-access fields.  Fuel-bounded; the wrapper's fuel suffices since
every iteration consumes at least one byte. -/
def message_parse_fields_loop (fuel : Nat) (m : Message) (ri : Nat) :
    Except Int Message :=
  match fuel with
  | 0 => .error (-EBADMSG)
  | fuel + 1 =>
    if ri ≥ m.fields.length then .ok m
    else
      match message_peek_fields m ri 8 1 with
      | (r, ri1, hoff) =>
        if r < 0 then .error r
        else
          let header := getByte m.fields hoff
          match message_peek_field_signature m ri1 with
          | (r2, ri2, signature) =>
            if r2 < 0 then .error r2
            else if header = 0 then .error (-EBADMSG)
            else if header = SD_BUS_MESSAGE_HEADER_PATH then
              if signature ≠ [SD_BUS_TYPE_OBJECT_PATH] then .error (-EBADMSG)
              else
                match message_peek_field_string m (some object_path_is_valid) ri2 with
                | (r3, ri3, v) =>
                  if r3 < 0 then .error r3
                  else message_parse_fields_loop fuel { m with path := some v } ri3
            else if header = SD_BUS_MESSAGE_HEADER_INTERFACE then
              if signature ≠ [SD_BUS_TYPE_STRING] then .error (-EBADMSG)
              else
                match message_peek_field_string m (some interface_name_is_valid) ri2 with
                | (r3, ri3, v) =>
                  if r3 < 0 then .error r3
                  else message_parse_fields_loop fuel { m with interface := some v } ri3
            else if header = SD_BUS_MESSAGE_HEADER_MEMBER then
              if signature ≠ [SD_BUS_TYPE_STRING] then .error (-EBADMSG)
              else
                match message_peek_field_string m (some member_name_is_valid) ri2 with
                | (r3, ri3, v) =>
                  if r3 < 0 then .error r3
                  else message_parse_fields_loop fuel { m with member := some v } ri3
            else if header = SD_BUS_MESSAGE_HEADER_ERROR_NAME then
              if signature ≠ [SD_BUS_TYPE_STRING] then .error (-EBADMSG)
              else
                match message_peek_field_string m (some error_name_is_valid) ri2 with
                | (r3, ri3, v) =>
                  if r3 < 0 then .error r3
                  else message_parse_fields_loop fuel { m with error_name := some v } ri3
            else if header = SD_BUS_MESSAGE_HEADER_DESTINATION then
              if signature ≠ [SD_BUS_TYPE_STRING] then .error (-EBADMSG)
              else
                match message_peek_field_string m (some service_name_is_valid) ri2 with
                | (r3, ri3, v) =>
                  if r3 < 0 then .error r3
                  else message_parse_fields_loop fuel { m with destination := some v } ri3
            else if header = SD_BUS_MESSAGE_HEADER_SENDER then
              if signature ≠ [SD_BUS_TYPE_STRING] then .error (-EBADMSG)
              else
                match message_peek_field_string m (some service_name_is_valid) ri2 with
                | (r3, ri3, v) =>
                  if r3 < 0 then .error r3
                  else message_parse_fields_loop fuel { m with sender := some v } ri3
            else if header = SD_BUS_MESSAGE_HEADER_SIGNATURE then
              if signature ≠ [SD_BUS_TYPE_SIGNATURE] then .error (-EBADMSG)
              else
                match message_peek_field_signature m ri2 with
                | (r3, ri3, s) =>
                  if r3 < 0 then .error r3
                  else
                    message_parse_fields_loop fuel
                      { m with root_container := { m.root_container with signature := s } }
                      ri3
            else if header = SD_BUS_MESSAGE_HEADER_REPLY_SERIAL then
              if signature ≠ [SD_BUS_TYPE_UINT32] then .error (-EBADMSG)
              else
                match message_peek_field_uint32 m ri2 with
                | (r3, ri3, v) =>
                  if r3 < 0 then .error r3
                  else if v = 0 then .error (-EBADMSG)
                  else message_parse_fields_loop fuel { m with reply_serial := v } ri3
            else
              match message_skip_fields m ri2 UINT32MAX signature with
              | .error e => .error e
              | .ok ri3 => message_parse_fields_loop fuel m ri3

/-- The per-type header requirements of `message_parse_fields`'s final
switch (spec invariant 9). -/
def message_type_reqs_ok (m : Message) : Bool :=
  if m.htype = SD_BUS_MESSAGE_TYPE_SIGNAL then
    m.path.isSome && m.interface.isSome && m.member.isSome
  else if m.htype = SD_BUS_MESSAGE_TYPE_METHOD_CALL then
    m.path.isSome && m.member.isSome
  else if m.htype = SD_BUS_MESSAGE_TYPE_METHOD_RETURN then
    m.reply_serial != 0
  else if m.htype = SD_BUS_MESSAGE_TYPE_METHOD_ERROR then
    m.reply_serial != 0 && m.error_name.isSome
  else true

/-- `message_parse_fields`: enumerate the fields, then enforce
body/signature consistency and the per-type requirements, then (for a
method error) best-effort read the first body string into
`error.message`. -/
def message_parse_fields (m : Message) : Except Int Message :=
  match message_parse_fields_loop (m.fields.length + 1) m 0 with
  | .error e => .error e
  | .ok m1 =>
    if m1.root_container.signature.isEmpty ≠ decide (m1.body.length = 0) then
      .error (-EBADMSG)
    else if ¬message_type_reqs_ok m1 then .error (-EBADMSG)
    else
      let m2 :=
        if m1.htype = SD_BUS_MESSAGE_TYPE_METHOD_ERROR then
          match sd_bus_message_read_basic m1 SD_BUS_TYPE_STRING with
          | some (mr, r, some (.str s)) =>
            if r = 1 then { mr with error_message := some s } else mr
          | some (mr, _, _) => mr
          | none => m1
        else m1
      .ok m2

/-- `bus_message_from_malloc` (the `ucred`/`label` credential copying
carries no claim content and is omitted): validate the fixed header,
slice the fields and body regions, mark sealed, and run
`message_parse_fields`. -/
def bus_message_from_malloc (buffer : List Nat) : Except Int Message :=
  if buffer.length < 16 then .error (-EBADMSG)
  else if getByte buffer 3 ≠ 1 then .error (-EBADMSG)
  else if readU32le buffer 8 = 0 then .error (-EBADMSG)
  else if getByte buffer 1 = SD_BUS_MESSAGE_TYPE_INVALID then .error (-EBADMSG)
  else
    let endian := getByte buffer 0
    let fsbs : Option (Nat × Nat) :=
      if endian = SD_BUS_NATIVE_ENDIAN then
        some (readU32le buffer 12, readU32le buffer 4)
      else if endian = SD_BUS_REVERSE_ENDIAN then
        some (bswap32 (readU32le buffer 12), bswap32 (readU32le buffer 4))
      else none
    match fsbs with
    | none => .error (-EBADMSG)
    | some (fs, bs) =>
      if buffer.length ≠ 16 + alignTo fs 8 + bs then .error (-EBADMSG)
      else
        let m : Message :=
          { htype := getByte buffer 1, flags := getByte buffer 2, version := 1,
            serial := readU32le buffer 8, bswap := endian = SD_BUS_REVERSE_ENDIAN,
            fields := subBytes buffer 16 fs,
            body := subBytes buffer (16 + alignTo fs 8) bs,
            sealed := true, rindex := 0,
            root_container := ⟨0, [], 0, none, 0⟩, containers := [],
            reply_serial := 0, path := none, interface := none, member := none,
            destination := none, sender := none, error_name := none,
            error_message := none, dont_send := false, n_fds := 0 }
        message_parse_fields m

/-! ### constructors -/

/-- `message_new` (the `bus` argument only supplies the version, 1). -/
def message_new (btype : Nat) : Message :=
  { htype := btype, flags := 0, version := 1, serial := 0, bswap := false,
    fields := [], body := [], sealed := false, rindex := 0,
    root_container := ⟨0, [], 0, none, 0⟩, containers := [], reply_serial := 0,
    path := none, interface := none, member := none, destination := none,
    sender := none, error_name := none, error_message := none,
    dont_send := false, n_fds := 0 }

/-- Chain one fallible append in a constructor: a negative return
takes C's `goto fail` path (the partly built message is freed and the
code returned), otherwise construction continues. -/
def chainAppend (p : Message × Int) (f : Message → Except Int Message) :
    Except Int Message :=
  if p.2 < 0 then .error p.2 else f p.1

theorem chainAppend_ok (p : Message × Int) (f : Message → Except Int Message)
    (t : Message) : chainAppend p f = .ok t ↔ ¬p.2 < 0 ∧ f p.1 = .ok t := by
  unfold chainAppend
  split_ifs with h1 <;> simp [h1]

/-- `sd_bus_message_new_signal` (the NULL-argument checks cannot fire
on the value model). -/
def sd_bus_message_new_signal (path iface memb : List Nat) : Except Int Message :=
  let t0 := message_new SD_BUS_MESSAGE_TYPE_SIGNAL
  let t1 := { t0 with flags := t0.flags ||| SD_BUS_MESSAGE_NO_REPLY_EXPECTED }
  chainAppend (message_append_field_string t1 SD_BUS_MESSAGE_HEADER_PATH
      SD_BUS_TYPE_OBJECT_PATH path) fun t2 =>
  chainAppend (message_append_field_string { t2 with path := some path }
      SD_BUS_MESSAGE_HEADER_INTERFACE SD_BUS_TYPE_STRING iface) fun t3 =>
  chainAppend (message_append_field_string { t3 with interface := some iface }
      SD_BUS_MESSAGE_HEADER_MEMBER SD_BUS_TYPE_STRING memb) fun t4 =>
  .ok { t4 with member := some memb }

/-- `sd_bus_message_new_method_call`. -/
def sd_bus_message_new_method_call (destination : Option (List Nat)) (path : List Nat)
    (iface : Option (List Nat)) (memb : List Nat) : Except Int Message :=
  let t0 := message_new SD_BUS_MESSAGE_TYPE_METHOD_CALL
  chainAppend (message_append_field_string t0 SD_BUS_MESSAGE_HEADER_PATH
      SD_BUS_TYPE_OBJECT_PATH path) fun t1 =>
  chainAppend (message_append_field_string { t1 with path := some path }
      SD_BUS_MESSAGE_HEADER_MEMBER SD_BUS_TYPE_STRING memb) fun t2 =>
  chainAppend (match iface with
    | none => ({ t2 with member := some memb }, 0)
    | some s =>
      match message_append_field_string { t2 with member := some memb }
          SD_BUS_MESSAGE_HEADER_INTERFACE SD_BUS_TYPE_STRING s with
      | (t3, r3) => ({ t3 with interface := some s }, r3)) fun t3 =>
  match destination with
  | none => .ok t3
  | some s =>
    chainAppend (message_append_field_string t3 SD_BUS_MESSAGE_HEADER_DESTINATION
        SD_BUS_TYPE_STRING s) fun t4 =>
    .ok { t4 with destination := some s }

/-- `message_new_reply`: the call must be sealed and a METHOD_CALL;
the reply gets the no-reply flag, the call's (byte-swapped) serial as
`reply_serial` and, when the call has a sender, a DESTINATION header
field holding it.  NB the C code stores that string's address in
`t->sender` (not `t->destination`); the model mirrors this. -/
def message_new_reply (call : Message) (btype : Nat) : Except Int Message :=
  if ¬call.sealed then .error (-EPERM)
  else if call.htype ≠ SD_BUS_MESSAGE_TYPE_METHOD_CALL then .error (-EINVAL)
  else
    let t0 := message_new btype
    let t1 := { t0 with flags := t0.flags ||| SD_BUS_MESSAGE_NO_REPLY_EXPECTED,
                        reply_serial := BUS_MESSAGE_SERIAL call }
    chainAppend (message_append_field_uint32 t1 SD_BUS_MESSAGE_HEADER_REPLY_SERIAL
        t1.reply_serial) fun t2 =>
    match call.sender with
    | none =>
      .ok { t2 with dont_send := call.flags &&& SD_BUS_MESSAGE_NO_REPLY_EXPECTED ≠ 0 }
    | some s =>
      chainAppend (message_append_field_string t2 SD_BUS_MESSAGE_HEADER_DESTINATION
          SD_BUS_TYPE_STRING s) fun t3 =>
      .ok { t3 with
            sender := some s
            dont_send := call.flags &&& SD_BUS_MESSAGE_NO_REPLY_EXPECTED ≠ 0 }

/-- `sd_bus_message_new_method_return`. -/
def sd_bus_message_new_method_return (call : Message) : Except Int Message :=
  message_new_reply call SD_BUS_MESSAGE_TYPE_METHOD_RETURN

/-- `sd_bus_message_new_method_error`: the error must be set; append
the ERROR_NAME field and, when present, the error message as the first
body string. -/
def sd_bus_message_new_method_error (call : Message) (e : BusError) :
    Except Int Message :=
  if ¬sd_bus_error_is_set e then .error (-EINVAL)
  else
    match message_new_reply call SD_BUS_MESSAGE_TYPE_METHOD_ERROR with
    | .error r => .error r
    | .ok t =>
      chainAppend (message_append_field_string t SD_BUS_MESSAGE_HEADER_ERROR_NAME
          SD_BUS_TYPE_STRING (e.name.getD [])) fun t1 =>
      let t1 := { t1 with error_name := e.name }
      match e.message with
      | none => .ok t1
      | some msg =>
        match message_append_basic t1 SD_BUS_TYPE_STRING (some (.str msg)) with
        | none => .error (-EINVAL)   -- unreachable: the pointer is non-NULL
        | some (t2, r2) =>
          if r2 < 0 then .error r2
          else .ok { t2 with error_message := some msg }

/-! ### seal and accessors -/

/-- `bus_message_seal`: refuse when sealed or containers are open;
append the SIGNATURE header field when the root signature is
non-empty, and a UNIX_FDS field when fds are attached; store the given
serial truncated to 32 bits; set sealed.  (The iovec view carries no
claim content and is omitted.) -/
def bus_message_seal (m : Message) (serial : Nat) : Message × Int :=
  if m.sealed then (m, -EPERM)
  else if m.containers.length > 0 then (m, -EBADMSG)
  else
    let step1 : Message × Int :=
      if ¬m.root_container.signature.isEmpty then
        message_append_field_signature m SD_BUS_MESSAGE_HEADER_SIGNATURE
          m.root_container.signature
      else (m, 0)
    match step1 with
    | (m1, r) =>
      if r < 0 then (m1, r)
      else
        let step2 : Message × Int :=
          if m1.n_fds > 0 then
            message_append_field_uint32 m1 SD_BUS_MESSAGE_HEADER_UNIX_FDS m1.n_fds
          else (m1, 0)
        match step2 with
        | (m2, r2) =>
          if r2 < 0 then (m2, r2)
          else ({ m2 with serial := serial % POW32, sealed := true }, 0)

/-- `sd_bus_message_get_no_reply`: reports the flag only for a
METHOD_CALL, 0 for every other message type. -/
def sd_bus_message_get_no_reply (m : Message) : Int :=
  if m.htype = SD_BUS_MESSAGE_TYPE_METHOD_CALL then
    (if m.flags &&& SD_BUS_MESSAGE_NO_REPLY_EXPECTED ≠ 0 then 1 else 0)
  else 0

/-! ### nested-container pipelines

Concrete build/parse chains exercising the container machinery:
`n` nested VARIANT containers are opened on a fresh method-call message
(build path), filled with a single byte, closed, sealed, rewound and
re-entered (parse path). -/

/-- Iterate `sd_bus_message_open_container(m, 'v', "v")` `n` times on a
fresh METHOD_CALL message, stopping at the first failure. -/
def open_variants : Nat → Message × Int
  | 0 => (message_new SD_BUS_MESSAGE_TYPE_METHOD_CALL, 0)
  | n + 1 =>
    let p := open_variants n
    if p.2 = 0 then
      sd_bus_message_open_container p.1 SD_BUS_TYPE_VARIANT [SD_BUS_TYPE_VARIANT]
    else p

/-- Close `n` containers in sequence, stopping at the first failure. -/
def close_variants : Nat → Message → Message × Int
  | 0, m => (m, 0)
  | n + 1, m =>
    let p := sd_bus_message_close_container m
    if p.2 = 0 then close_variants n p.1 else p

/-- A sealed message whose body is 65 nested variants: 64 `v` variants
wrapping a `y` variant holding the byte 7, all closed, sealed with
serial 1. -/
def nested_variants_sealed : Message × Int :=
  let p := open_variants 64
  if p.2 ≠ 0 then p
  else
    let q := sd_bus_message_open_container p.1 SD_BUS_TYPE_VARIANT [SD_BUS_TYPE_BYTE]
    if q.2 ≠ 0 then q
    else
      match message_append_basic q.1 SD_BUS_TYPE_BYTE (some (BasicVal.num 7)) with
      | none => (q.1, -EINVAL)
      | some (m, r) =>
        if r ≠ 0 then (m, r)
        else
          let cl := close_variants 65 m
          if cl.2 ≠ 0 then cl else bus_message_seal cl.1 1

/-- Parse path: rewind `nested_variants_sealed` and iterate
`sd_bus_message_enter_container(m, 'v', "v")` `n` times, stopping at the
first failure. -/
def enter_variants : Nat → Message × Int
  | 0 => ((sd_bus_message_rewind nested_variants_sealed.1 true).1, 1)
  | n + 1 =>
    let p := enter_variants n
    if p.2 = 1 then
      sd_bus_message_enter_container p.1 SD_BUS_TYPE_VARIANT [SD_BUS_TYPE_VARIANT]
    else p

/-! ### single-value round trip (append, seal, read back at the value) -/

/-- Outcome of a single-value round trip through the writer and the
reader. -/
inductive RTRes where
  | appendCrash
  | appendFail (r : Int)
  | sealFail (r : Int)
  | readCrash
  | read (r : Int) (q : Option BasicVal)
deriving DecidableEq

/-- Append one basic value of type `t` to the message `m`, seal the
result, position the read cursor at that value (the read offset at the
end of the pre-append body — the reader itself skips the alignment
padding — and the signature cursor back at the appended type's
position), and read one basic value of type `t`. -/
def round_trip_at (m : Message) (t : Nat) (p : Option BasicVal)
    (serial : Nat) : RTRes :=
  match message_append_basic m t p with
  | none => RTRes.appendCrash
  | some (m1, r1) =>
    if r1 ≠ 0 then RTRes.appendFail r1
    else
      match bus_message_seal m1 serial with
      | (m2, r2) =>
        if r2 ≠ 0 then RTRes.sealFail r2
        else
          match sd_bus_message_read_basic
              { m2 with
                root_container :=
                  { m2.root_container with index := m.root_container.index }
                rindex := m.body.length } t with
          | none => RTRes.readCrash
          | some (_, r, q) => RTRes.read r q

/-! ### general lemmas about the byte helpers -/

theorem le_alignTo (x a : Nat) (h : 0 < a) : x ≤ alignTo x a := by
  unfold alignTo
  rw [Nat.mul_comm]
  have h1 := Nat.div_add_mod (x + a - 1) a
  have h2 : (x + a - 1) % a < a := Nat.mod_lt _ h
  generalize hP : a * ((x + a - 1) / a) = P at h1 ⊢
  generalize hM : (x + a - 1) % a = M at h1 h2
  omega

theorem alignTo_of_dvd (x a : Nat) (h : 0 < a) (hd : a ∣ x) : alignTo x a = x := by
  obtain ⟨c, rfl⟩ := hd
  unfold alignTo
  have h1 : a * c + a - 1 = a - 1 + c * a := by rw [Nat.mul_comm]; omega
  rw [h1, Nat.add_mul_div_right _ _ h, Nat.div_eq_of_lt (by omega), Nat.zero_add,
    Nat.mul_comm]

theorem dvd_alignTo (x a : Nat) : a ∣ alignTo x a :=
  Dvd.intro_left _ rfl

theorem alignTo_alignTo (x a : Nat) (h : 0 < a) :
    alignTo (alignTo x a) a = alignTo x a :=
  alignTo_of_dvd _ _ h (dvd_alignTo x a)

theorem getByte_append_right (xs ys : List Nat) (i : Nat) :
    getByte (xs ++ ys) (xs.length + i) = getByte ys i := by
  unfold getByte
  rw [List.getD_append_right _ _ _ _ (by omega)]
  congr 1
  omega

theorem getByte_append_left (xs ys : List Nat) (i : Nat) (h : i < xs.length) :
    getByte (xs ++ ys) i = getByte xs i := by
  unfold getByte
  exact List.getD_append _ _ _ _ h

/-! ### C7: `buffer_peek` -/

/-- C7: a read at cursor `rindex` with alignment `align` and size
`nbytes` over a region of size `sz` succeeds exactly when
`align_up(rindex, align) + nbytes ≤ sz` and every padding byte in
`[rindex, align_up(rindex, align))` is zero, and then the cursor
advances to `align_up(rindex, align) + nbytes`; otherwise it fails
with malformed-message (`-EBADMSG`) and the cursor does not move. -/
theorem c7_buffer_peek_ok_iff (p : List Nat) (sz rindex align nbytes : Nat) :
    (buffer_peek p sz rindex align nbytes =
        (1, alignTo rindex align + nbytes, alignTo rindex align) ↔
      alignTo rindex align + nbytes ≤ sz ∧
        ∀ k, rindex ≤ k → k < alignTo rindex align → getByte p k = 0) ∧
    (¬(alignTo rindex align + nbytes ≤ sz ∧
        ∀ k, rindex ≤ k → k < alignTo rindex align → getByte p k = 0) →
      buffer_peek p sz rindex align nbytes = (-EBADMSG, rindex, 0)) := by
  have key : ((List.range' rindex (alignTo rindex align - rindex)).all
        (fun k => getByte p k = 0) = true) ↔
      ∀ k, rindex ≤ k → k < alignTo rindex align → getByte p k = 0 := by
    rw [List.all_eq_true]
    constructor
    · intro h k h1 h2
      simpa using h k (List.mem_range'_1.mpr ⟨h1, by omega⟩)
    · intro h k hk
      obtain ⟨h1, h2⟩ := List.mem_range'_1.mp hk
      simpa using h k h1 (by omega)
  unfold buffer_peek
  by_cases h1 : alignTo rindex align + nbytes > sz
  · constructor
    · rw [if_pos h1]
      constructor
      · intro h
        exact absurd (congrArg Prod.fst h) (by norm_num [EBADMSG])
      · intro ⟨ha, _⟩
        omega
    · intro _
      rw [if_pos h1]
  · by_cases h2 : ((List.range' rindex (alignTo rindex align - rindex)).all
        (fun k => getByte p k = 0) = true)
    · constructor
      · rw [if_neg h1, if_pos h2]
        exact ⟨fun _ => ⟨by omega, key.mp h2⟩, fun _ => rfl⟩
      · intro hn
        exact absurd ⟨by omega, key.mp h2⟩ hn
    · constructor
      · rw [if_neg h1, if_neg h2]
        constructor
        · intro h
          exact absurd (congrArg Prod.fst h) (by norm_num [EBADMSG])
        · intro ⟨_, hb⟩
          exact absurd (key.mpr hb) h2
      · intro _
        rw [if_neg h1, if_neg h2]

/-- Witness for C7 at a concrete region: reading 2 bytes at cursor 1
with alignment 4 over `[7, 0, 0, 0, 5, 6]` succeeds and moves the
cursor to 6. -/
theorem c7_witness :
    buffer_peek [7, 0, 0, 0, 5, 6] 6 1 4 2 = (1, 6, 4) := by
  have hb : ∀ k, 1 ≤ k → k < alignTo 1 4 → getByte [7, 0, 0, 0, 5, 6] k = 0 := by
    intro k h1 h2
    have h3 : alignTo 1 4 = 4 := by decide
    rw [h3] at h2
    interval_cases k <;> rfl
  have h := (c7_buffer_peek_ok_iff [7, 0, 0, 0, 5, 6] 6 1 4 2).1.mpr
    ⟨by decide, hb⟩
  have h4 : alignTo 1 4 = 4 := by decide
  rw [h4] at h
  exact h

/-! ### C10: `sd_bus_message_get_no_reply` -/

theorem message_append_field_string_flags (m : Message) (h t : Nat) (s : List Nat) :
    (message_append_field_string m h t s).1.flags = m.flags := by
  simp only [message_append_field_string, message_extend_fields]
  split_ifs with h1
  · rfl
  · rcases hb : buffer_extend m.fields 8 (4 + 4 + s.length + 1) with _ | ⟨f, off⟩ <;>
      simp [hb]

theorem message_append_field_string_htype (m : Message) (h t : Nat) (s : List Nat) :
    (message_append_field_string m h t s).1.htype = m.htype := by
  simp only [message_append_field_string, message_extend_fields]
  split_ifs with h1
  · rfl
  · rcases hb : buffer_extend m.fields 8 (4 + 4 + s.length + 1) with _ | ⟨f, off⟩ <;>
      simp [hb]

theorem message_append_field_uint32_flags (m : Message) (h x : Nat) :
    (message_append_field_uint32 m h x).1.flags = m.flags := by
  simp only [message_append_field_uint32, message_extend_fields]
  rcases hb : buffer_extend m.fields 8 (4 + 4) with _ | ⟨f, off⟩ <;> simp [hb]

theorem message_append_field_uint32_htype (m : Message) (h x : Nat) :
    (message_append_field_uint32 m h x).1.htype = m.htype := by
  simp only [message_append_field_uint32, message_extend_fields]
  rcases hb : buffer_extend m.fields 8 (4 + 4) with _ | ⟨f, off⟩ <;> simp [hb]

theorem new_signal_flags (p i mm : List Nat) (t : Message)
    (h : sd_bus_message_new_signal p i mm = .ok t) :
    t.flags = 1 ∧ t.htype = SD_BUS_MESSAGE_TYPE_SIGNAL := by
  simp only [sd_bus_message_new_signal, chainAppend_ok, Except.ok.injEq] at h
  obtain ⟨-, -, -, ht⟩ := h
  subst ht
  constructor
  · simp only [message_append_field_string_flags]
    rfl
  · simp only [message_append_field_string_htype]
    rfl

/-- C10: for every message whose type is not METHOD_CALL,
`get_no_reply` returns 0 even when the no-reply flag bit is set — in
particular the reply of `message_new_reply` and the signal of
`new_signal`, whose constructors set the flag, report 0 — while for
METHOD_CALL messages it reports the flag bit. -/
theorem c10_get_no_reply :
    (∀ m : Message, m.htype ≠ SD_BUS_MESSAGE_TYPE_METHOD_CALL →
      sd_bus_message_get_no_reply m = 0) ∧
    (∀ p i mm t, sd_bus_message_new_signal p i mm = .ok t →
      t.flags &&& SD_BUS_MESSAGE_NO_REPLY_EXPECTED ≠ 0 ∧
      sd_bus_message_get_no_reply t = 0) ∧
    (∀ m : Message, m.htype = SD_BUS_MESSAGE_TYPE_METHOD_CALL →
      sd_bus_message_get_no_reply m =
        (if m.flags &&& SD_BUS_MESSAGE_NO_REPLY_EXPECTED ≠ 0 then 1 else 0)) := by
  refine ⟨?_, ?_, ?_⟩
  · intro m hm
    unfold sd_bus_message_get_no_reply
    rw [if_neg hm]
  · intro p i mm t hok
    obtain ⟨hf, hy⟩ := new_signal_flags p i mm t hok
    constructor
    · rw [hf]
      decide
    · unfold sd_bus_message_get_no_reply
      rw [hy]
      simp [SD_BUS_MESSAGE_TYPE_SIGNAL, SD_BUS_MESSAGE_TYPE_METHOD_CALL]
  · intro m hm
    unfold sd_bus_message_get_no_reply
    rw [if_pos hm]

/-- Witness for C10: a concrete signal (type 4, flag bit set) reports
no-reply 0, a method call with the flag set reports 1. -/
theorem c10_witness :
    sd_bus_message_get_no_reply { message_new SD_BUS_MESSAGE_TYPE_SIGNAL with
      flags := 1 } = 0 ∧
    sd_bus_message_get_no_reply { message_new SD_BUS_MESSAGE_TYPE_METHOD_CALL with
      flags := 1 } = 1 := by
  constructor
  · exact c10_get_no_reply.1
      { message_new SD_BUS_MESSAGE_TYPE_SIGNAL with flags := 1 } (by decide)
  · have h := c10_get_no_reply.2.2
      { message_new SD_BUS_MESSAGE_TYPE_METHOD_CALL with flags := 1 } (by decide)
    simpa using h

/-! ### C6: `sd_bus_message_exit_container` on an ARRAY frame -/

theorem message_get_container_concat (m : Message) (cs : List BusContainer)
    (c : BusContainer) (h : m.containers = cs ++ [c]) :
    message_get_container m = c := by
  unfold message_get_container
  rw [h, List.getLast?_concat]

/-- C6: on a sealed message whose top frame is an ARRAY (with its
length-prefix offset recorded), `exit_container` succeeds exactly when
the frame's begin offset plus the byte-swapped u32 length prefix
equals the read cursor `rindex`, and then pops the frame (freeing its
signature); otherwise it fails (`-EBUSY`). -/
theorem c6_exit_container_array (m : Message) (cs : List BusContainer)
    (c : BusContainer) (off : Nat)
    (hs : m.sealed = true)
    (hc : m.containers = cs ++ [c])
    (he : c.enclosing = SD_BUS_TYPE_ARRAY)
    (ha : c.array_size = some off) :
    sd_bus_message_exit_container m =
      (if c.beginOff + BUS_MESSAGE_BSWAP32 m (readU32le m.body off) = m.rindex then
        some ({ m with containers := cs }, 1)
      else some (m, -EBUSY)) := by
  have hg : message_get_container m = c := message_get_container_concat m cs c hc
  have hlen : m.containers.length = cs.length + 1 := by rw [hc]; simp
  have hdrop : m.containers.dropLast = cs := by rw [hc]; exact List.dropLast_concat
  unfold sd_bus_message_exit_container
  simp only [hg, he, ha, hs, hlen, hdrop, not_true_eq_false, if_false,
    Nat.succ_ne_zero, ite_false]
  split_ifs with h1 h2 <;> first | rfl | omega

/-- Witness for C6: a concrete sealed message holding an open ARRAY
frame (`begin = 4`, length prefix 1 at body offset 0, cursor 5) exits
successfully, popping the frame. -/
theorem c6_witness :
    sd_bus_message_exit_container
      { message_new 1 with
        sealed := true
        body := [1, 0, 0, 0, 7]
        rindex := 5
        containers := [⟨97, [121], 0, some 0, 4⟩] } =
      some ({ message_new 1 with
        sealed := true
        body := [1, 0, 0, 0, 7]
        rindex := 5
        containers := [] }, 1) := by
  have h := c6_exit_container_array
    { message_new 1 with
      sealed := true
      body := [1, 0, 0, 0, 7]
      rindex := 5
      containers := [⟨97, [121], 0, some 0, 4⟩] }
    [] ⟨97, [121], 0, some 0, 4⟩ 0 rfl rfl rfl rfl
  rw [h]
  decide

/-! ### C8: failed `message_append_basic` truncates the extended
root signature -/

theorem append_fail_restore_root (c : BusContainer) (mm : Message)
    (hm : mm.containers = []) :
    (append_fail_restore c true mm).root_container = truncSig c := by
  unfold append_fail_restore message_set_container
  rw [hm]
  rfl

theorem message_append_basic_write_fail (m : Message) (c : BusContainer) (t : Nat)
    (p : Option BasicVal) (m' : Message) (r : Int)
    (hm : m.containers = [])
    (h : message_append_basic_write m c true t p = some (m', r)) (hr : r < 0) :
    m'.root_container = truncSig c := by
  unfold message_append_basic_write at h
  by_cases h1 : (t = SD_BUS_TYPE_STRING ∨ t = SD_BUS_TYPE_OBJECT_PATH ∨
      t = SD_BUS_TYPE_SIGNATURE) ∧ p = none
  · rw [if_pos h1] at h
    simp only [Option.some.injEq, Prod.mk.injEq] at h
    obtain ⟨hm', -⟩ := h
    rw [← hm']
    exact append_fail_restore_root c m hm
  · rw [if_neg h1] at h
    rcases henc : basic_wire_enc t p with _ | ⟨al, sz, bytes⟩
    · rw [henc] at h
      simp at h
    · rw [henc] at h
      dsimp only at h
      rcases hext : message_extend_body m al sz with _ | ⟨m2, off⟩
      · rw [hext] at h
        simp only [Option.some.injEq, Prod.mk.injEq] at h
        obtain ⟨hm', -⟩ := h
        rw [← hm']
        exact append_fail_restore_root c m hm
      · rw [hext] at h
        dsimp only at h
        split_ifs at h <;>
          (simp only [Option.some.injEq, Prod.mk.injEq] at h
           obtain ⟨-, hrr⟩ := h
           rw [← hrr] at hr
           exact absurd hr (by norm_num))

/-- C8: on an unsealed message writing at the root container with the
signature cursor at its end (so that `append_basic` tentatively
extends the root signature), any failing append — null string pointer
(`-EINVAL`) or out-of-memory on body growth (`-ENOMEM`) — leaves the
root signature truncated back to its pre-call value. -/
theorem c8_append_fail_truncates (m : Message) (t : Nat) (p : Option BasicVal)
    (m' : Message) (r : Int)
    (hroot : m.containers = [])
    (hidx : m.root_container.index = m.root_container.signature.length)
    (h : message_append_basic m t p = some (m', r))
    (hr : r < 0) :
    m'.root_container.signature = m.root_container.signature := by
  unfold message_append_basic at h
  have hg : message_get_container m = m.root_container := by
    unfold message_get_container
    rw [hroot]
    rfl
  rw [hg] at h
  dsimp only at h
  by_cases hsealed : m.sealed
  · rw [if_pos hsealed] at h
    simp only [Option.some.injEq, Prod.mk.injEq] at h
    obtain ⟨hm', -⟩ := h
    rw [← hm']
  · rw [if_neg hsealed] at h
    by_cases hbasic : bus_type_is_basic t
    · rw [if_neg (by simp [hbasic])] at h
      have hz : sigAt m.root_container = 0 := by
        unfold sigAt getByte
        exact List.getD_eq_default _ _ (by omega)
      rw [hz] at h
      rw [if_neg (by omega)] at h
      by_cases henc : m.root_container.enclosing ≠ 0
      · rw [if_pos henc] at h
        simp only [Option.some.injEq, Prod.mk.injEq] at h
        obtain ⟨hm', -⟩ := h
        rw [← hm']
      · rw [if_neg henc] at h
        have hms : message_set_container m
            { m.root_container with
              signature := m.root_container.signature ++ [t] } =
            { m with root_container :=
              { m.root_container with
                signature := m.root_container.signature ++ [t] } } := by
          unfold message_set_container
          rw [hroot]
        rw [hms] at h
        have hw := message_append_basic_write_fail _ _ t p m' r (by simpa using hroot)
          h hr
        rw [hw]
        unfold truncSig
        simp only [hidx]
        exact List.take_left _ _
    · rw [if_pos (by simp [hbasic])] at h
      simp only [Option.some.injEq, Prod.mk.injEq] at h
      obtain ⟨hm', -⟩ := h
      rw [← hm']

/-- Witness for C8: appending a STRING with a NULL value pointer to a
fresh message fails with `-EINVAL` and leaves the (tentatively
extended) root signature empty again. -/
theorem c8_witness :
    message_append_basic (message_new 1) SD_BUS_TYPE_STRING none =
      some ({ message_new 1 with
        root_container := ⟨0, [], 0, none, 0⟩ }, -EINVAL) ∧
    ({ message_new 1 with
        root_container := ⟨0, [], 0, none, 0⟩ } : Message).root_container.signature =
      (message_new 1).root_container.signature := by
  refine ⟨by decide, ?_⟩
  exact c8_append_fail_truncates (message_new 1) SD_BUS_TYPE_STRING none
    { message_new 1 with root_container := ⟨0, [], 0, none, 0⟩ } (-EINVAL)
    rfl rfl (by decide) (by decide)

/-! ### C9: `bus_message_seal` -/

theorem writeBytes_append_replicate (xs : List Nat) (n : Nat) (bs : List Nat)
    (h : bs.length = n) :
    writeBytes (xs ++ List.replicate n (0 : Nat)) xs.length bs = xs ++ bs := by
  unfold writeBytes
  rw [List.take_left, h, List.drop_append, List.drop_eq_nil_of_le (by simp),
    List.append_nil]

theorem buffer_extend_eq (p : List Nat) (align ext : Nat)
    (h : alignTo p.length align + ext ≤ UINT32MAX) :
    buffer_extend p align ext =
      some (p ++ List.replicate (alignTo p.length align - p.length) 0 ++
        List.replicate ext 0, alignTo p.length align) := by
  unfold buffer_extend
  rw [if_neg (by omega)]

theorem message_append_field_signature_eq (m : Message) (h : Nat) (s : List Nat)
    (h255 : s.length ≤ 255)
    (hsz : alignTo m.fields.length 8 + (4 + 1 + s.length + 1) ≤ UINT32MAX) :
    message_append_field_signature m h s =
      ({ m with fields :=
          (m.fields ++ List.replicate (alignTo m.fields.length 8 - m.fields.length) 0) ++
          ([h, 1, SD_BUS_TYPE_SIGNATURE, 0, s.length] ++ s ++ [0]) }, 0) := by
  unfold message_append_field_signature message_extend_fields
  rw [if_neg (by omega), buffer_extend_eq _ _ _ (by omega)]
  have hlen : ([h, 1, SD_BUS_TYPE_SIGNATURE, 0, s.length] ++ s ++ [0]).length =
      4 + 1 + s.length + 1 := by simp; omega
  have hwb : writeBytes
      ((m.fields ++ List.replicate (alignTo m.fields.length 8 - m.fields.length) 0) ++
        List.replicate (4 + 1 + s.length + 1) 0)
      (m.fields ++ List.replicate (alignTo m.fields.length 8 - m.fields.length) 0).length
      ([h, 1, SD_BUS_TYPE_SIGNATURE, 0, s.length] ++ s ++ [0]) =
      (m.fields ++ List.replicate (alignTo m.fields.length 8 - m.fields.length) 0) ++
        ([h, 1, SD_BUS_TYPE_SIGNATURE, 0, s.length] ++ s ++ [0]) :=
    writeBytes_append_replicate _ _ _ hlen
  have hplen : (m.fields ++
      List.replicate (alignTo m.fields.length 8 - m.fields.length) 0).length =
      alignTo m.fields.length 8 := by
    have := le_alignTo m.fields.length 8 (by omega)
    simp
    omega
  rw [hplen] at hwb
  dsimp only
  rw [← List.append_assoc, hwb]
  simp [List.append_assoc]

/-- C9 (amended): seal succeeds only on an unsealed message with no
open containers (`-EPERM` / `-EBADMSG` otherwise); on success it
appends the SIGNATURE header field exactly when the root signature is
non-empty, writes the given serial truncated to 32 bits into the
header, and sets sealed.  The serial is not validated: the truncated
serial — zero included — is stored as given. -/
theorem c9_seal (m : Message) (serial : Nat) :
    (m.sealed = true → bus_message_seal m serial = (m, -EPERM)) ∧
    (m.sealed = false → m.containers ≠ [] → bus_message_seal m serial = (m, -EBADMSG)) ∧
    (m.sealed = false → m.containers = [] → m.root_container.signature = [] →
      m.n_fds = 0 →
      bus_message_seal m serial =
        ({ m with serial := serial % POW32, sealed := true }, 0)) ∧
    (m.sealed = false → m.containers = [] → m.root_container.signature ≠ [] →
      m.root_container.signature.length ≤ 255 →
      alignTo m.fields.length 8 + (4 + 1 + m.root_container.signature.length + 1) ≤
        UINT32MAX →
      m.n_fds = 0 →
      bus_message_seal m serial =
        ({ m with
            fields :=
              (m.fields ++
                List.replicate (alignTo m.fields.length 8 - m.fields.length) 0) ++
              ([SD_BUS_MESSAGE_HEADER_SIGNATURE, 1, SD_BUS_TYPE_SIGNATURE, 0,
                m.root_container.signature.length] ++ m.root_container.signature ++ [0])
            serial := serial % POW32
            sealed := true }, 0)) := by
  refine ⟨?_, ?_, ?_, ?_⟩
  · intro hs
    unfold bus_message_seal
    rw [if_pos hs]
  · intro hs hc
    unfold bus_message_seal
    rw [hs]
    rw [if_neg (by simp)]
    rw [if_pos (List.length_pos.mpr hc)]
  · intro hs hc hsig hfd
    simp [bus_message_seal, hs, hc, hsig, hfd]
  · intro hs hc hsig h255 hsz hfd
    have happ := message_append_field_signature_eq m SD_BUS_MESSAGE_HEADER_SIGNATURE
      m.root_container.signature h255 hsz
    simp [bus_message_seal, hs, hc, hfd, List.isEmpty_iff, hsig, happ]

/-- Counterexample for C9 as stated: sealing a fresh message with
serial 0 succeeds (returns 0) and the sealed message's serial is 0 —
so not every successfully sealed message has a nonzero serial. -/
theorem c9_counterexample :
    (bus_message_seal (message_new 1) 0).2 = 0 ∧
    (bus_message_seal (message_new 1) 0).1.sealed = true ∧
    (bus_message_seal (message_new 1) 0).1.serial = 0 := by
  decide

/-- Witness for C9: sealing an unsealed message with root signature
`"u"` and serial 7 appends the SIGNATURE header field and stores
serial 7. -/
theorem c9_witness :
    bus_message_seal
      { message_new 1 with root_container := ⟨0, [117], 1, none, 0⟩, body := [5, 0, 0, 0] }
      7 =
    ({ message_new 1 with
        root_container := ⟨0, [117], 1, none, 0⟩
        body := [5, 0, 0, 0]
        fields := [8, 1, 103, 0, 1, 117, 0]
        serial := 7
        sealed := true }, 0) := by
  have h := (c9_seal
    { message_new 1 with root_container := ⟨0, [117], 1, none, 0⟩, body := [5, 0, 0, 0] }
    7).2.2.2 rfl rfl (by decide) (by decide) (by decide) rfl
  rw [h]
  decide

/-! ### C2: `bus_message_from_malloc` header validation -/

/-- The fields size read by `from_malloc`, byte-swapped per the endian
marker. -/
def from_malloc_fs (buffer : List Nat) : Nat :=
  if getByte buffer 0 = SD_BUS_REVERSE_ENDIAN then bswap32 (readU32le buffer 12)
  else readU32le buffer 12

/-- The body size read by `from_malloc`, byte-swapped per the endian
marker. -/
def from_malloc_bs (buffer : List Nat) : Nat :=
  if getByte buffer 0 = SD_BUS_REVERSE_ENDIAN then bswap32 (readU32le buffer 4)
  else readU32le buffer 4

/-- The claim's header conditions, following the spec's words, with
the type condition amended to what the code checks: the type byte is
merely nonzero (`!= _SD_BUS_MESSAGE_TYPE_INVALID`), not in 1..4. -/
def from_malloc_header_ok (buffer : List Nat) : Prop :=
  buffer.length ≥ 16 ∧ getByte buffer 3 = 1 ∧ readU32le buffer 8 ≠ 0 ∧
  getByte buffer 1 ≠ 0 ∧
  (getByte buffer 0 = SD_BUS_NATIVE_ENDIAN ∨
    getByte buffer 0 = SD_BUS_REVERSE_ENDIAN) ∧
  buffer.length = 16 + alignTo (from_malloc_fs buffer) 8 + from_malloc_bs buffer

instance from_malloc_header_ok_dec (buffer : List Nat) :
    Decidable (from_malloc_header_ok buffer) := by
  unfold from_malloc_header_ok
  infer_instance

/-- C2 (amended): `from_buffer` succeeds only if the buffer passes the
fixed-header validation — length ≥ 16, version 1, nonzero serial,
nonzero type byte (the code checks only `type != INVALID`, so types
outside 1..4 such as 5 are accepted), endian marker `l` or `B`, and
total length `16 + align_up(fields_size, 8) + body_size` with the
sizes byte-swapped per the marker; a buffer failing any of these is
rejected with malformed-message (`-EBADMSG`). -/
theorem c2_from_malloc_header (buffer : List Nat) :
    ((∃ m, bus_message_from_malloc buffer = .ok m) →
      from_malloc_header_ok buffer) ∧
    (¬from_malloc_header_ok buffer →
      bus_message_from_malloc buffer = .error (-EBADMSG)) := by
  unfold bus_message_from_malloc
  by_cases h1 : buffer.length < 16
  · rw [if_pos h1]
    exact ⟨fun ⟨m, hm⟩ => absurd hm (by simp),
      fun _ => rfl⟩
  · rw [if_neg h1]
    by_cases h2 : getByte buffer 3 ≠ 1
    · rw [if_pos h2]
      refine ⟨fun ⟨m, hm⟩ => absurd hm (by simp), fun _ => rfl⟩
    · rw [if_neg h2]
      by_cases h3 : readU32le buffer 8 = 0
      · rw [if_pos h3]
        refine ⟨fun ⟨m, hm⟩ => absurd hm (by simp), ?_⟩
        · intro _
          rfl
      · rw [if_neg h3]
        by_cases h4 : getByte buffer 1 = SD_BUS_MESSAGE_TYPE_INVALID
        · rw [if_pos h4]
          refine ⟨fun ⟨m, hm⟩ => absurd hm (by simp), fun _ => rfl⟩
        · rw [if_neg h4]
          dsimp only
          by_cases h5 : getByte buffer 0 = SD_BUS_NATIVE_ENDIAN
          · rw [if_pos h5]
            dsimp only
            by_cases h6 : buffer.length =
                16 + alignTo (readU32le buffer 12) 8 + readU32le buffer 4
            · rw [if_neg (by omega)]
              have hok : from_malloc_header_ok buffer := by
                refine ⟨by omega, by omega, h3, h4, Or.inl h5, ?_⟩
                unfold from_malloc_fs from_malloc_bs
                rw [if_neg (by rw [h5]; decide), if_neg (by rw [h5]; decide)]
                exact h6
              exact ⟨fun _ => hok, fun hno => absurd hok hno⟩
            · rw [if_pos (by omega)]
              refine ⟨fun ⟨m, hm⟩ => absurd hm (by simp), fun _ => rfl⟩
          · rw [if_neg h5]
            by_cases h7 : getByte buffer 0 = SD_BUS_REVERSE_ENDIAN
            · rw [if_pos h7]
              dsimp only
              by_cases h6 : buffer.length =
                  16 + alignTo (bswap32 (readU32le buffer 12)) 8 +
                    bswap32 (readU32le buffer 4)
              · rw [if_neg (by omega)]
                have hok : from_malloc_header_ok buffer := by
                  refine ⟨by omega, by omega, h3, h4, Or.inr h7, ?_⟩
                  unfold from_malloc_fs from_malloc_bs
                  rw [if_pos h7, if_pos h7]
                  exact h6
                exact ⟨fun _ => hok, fun hno => absurd hok hno⟩
              · rw [if_pos (by omega)]
                refine ⟨fun ⟨m, hm⟩ => absurd hm (by simp), fun _ => rfl⟩
            · rw [if_neg h7]
              dsimp only
              refine ⟨fun ⟨m, hm⟩ => absurd hm (by simp), ?_⟩
              intro _
              rfl

/-- Counterexample for C2 as stated: a 16-byte buffer with type byte 5
(outside the valid set 1..4), version 1, serial 1, endian `l`, zero
fields and body, is accepted by `from_malloc`. -/
theorem c2_counterexample :
    (bus_message_from_malloc
      [108, 5, 0, 1, 0, 0, 0, 0, 1, 0, 0, 0, 0, 0, 0, 0]).toOption.isSome = true ∧
    getByte [108, 5, 0, 1, 0, 0, 0, 0, 1, 0, 0, 0, 0, 0, 0, 0] 1 = 5 := by
  decide

/-- Witness for C2: the empty buffer fails the header conditions and
`from_malloc` rejects it with `-EBADMSG`. -/
theorem c2_witness :
    bus_message_from_malloc [] = .error (-EBADMSG) := by
  exact (c2_from_malloc_header []).2 (by decide)

/-! ### C5: `message_parse_fields` final checks -/

theorem isEmpty_eq_decide_iff (l : List Nat) (n : Nat) :
    (l.isEmpty = decide (n = 0)) ↔ (l = [] ↔ n = 0) := by
  cases l <;> rcases Nat.eq_zero_or_pos n with hn | hn <;> simp_all

theorem message_type_reqs_ok_iff (m : Message) :
    message_type_reqs_ok m = true ↔
      ((m.htype = SD_BUS_MESSAGE_TYPE_SIGNAL →
         m.path ≠ none ∧ m.interface ≠ none ∧ m.member ≠ none) ∧
       (m.htype = SD_BUS_MESSAGE_TYPE_METHOD_CALL →
         m.path ≠ none ∧ m.member ≠ none) ∧
       (m.htype = SD_BUS_MESSAGE_TYPE_METHOD_RETURN → m.reply_serial ≠ 0) ∧
       (m.htype = SD_BUS_MESSAGE_TYPE_METHOD_ERROR →
         m.reply_serial ≠ 0 ∧ m.error_name ≠ none)) := by
  unfold message_type_reqs_ok
  split_ifs with h1 h2 h3 h4 <;>
    simp_all [Option.isSome_iff_ne_none, bne_iff_ne, and_assoc,
      SD_BUS_MESSAGE_TYPE_SIGNAL, SD_BUS_MESSAGE_TYPE_METHOD_CALL,
      SD_BUS_MESSAGE_TYPE_METHOD_RETURN, SD_BUS_MESSAGE_TYPE_METHOD_ERROR]

/-- C5: once the field enumeration loop has succeeded, `parse_fields`
succeeds exactly when the per-type header requirements hold (SIGNAL:
path, interface and member; METHOD_CALL: path and member;
METHOD_RETURN: nonzero reply serial; METHOD_ERROR: nonzero reply
serial and an error name) and the root signature is empty exactly when
the body is empty; when these are violated it fails with
malformed-message (`-EBADMSG`). -/
theorem c5_parse_fields_reqs (m m1 : Message)
    (h : message_parse_fields_loop (m.fields.length + 1) m 0 = .ok m1) :
    ((message_parse_fields m).toOption.isSome = true ↔
      ((m1.root_container.signature = [] ↔ m1.body.length = 0) ∧
       (m1.htype = SD_BUS_MESSAGE_TYPE_SIGNAL →
         m1.path ≠ none ∧ m1.interface ≠ none ∧ m1.member ≠ none) ∧
       (m1.htype = SD_BUS_MESSAGE_TYPE_METHOD_CALL →
         m1.path ≠ none ∧ m1.member ≠ none) ∧
       (m1.htype = SD_BUS_MESSAGE_TYPE_METHOD_RETURN → m1.reply_serial ≠ 0) ∧
       (m1.htype = SD_BUS_MESSAGE_TYPE_METHOD_ERROR →
         m1.reply_serial ≠ 0 ∧ m1.error_name ≠ none))) ∧
    (¬((m1.root_container.signature = [] ↔ m1.body.length = 0) ∧
       (m1.htype = SD_BUS_MESSAGE_TYPE_SIGNAL →
         m1.path ≠ none ∧ m1.interface ≠ none ∧ m1.member ≠ none) ∧
       (m1.htype = SD_BUS_MESSAGE_TYPE_METHOD_CALL →
         m1.path ≠ none ∧ m1.member ≠ none) ∧
       (m1.htype = SD_BUS_MESSAGE_TYPE_METHOD_RETURN → m1.reply_serial ≠ 0) ∧
       (m1.htype = SD_BUS_MESSAGE_TYPE_METHOD_ERROR →
         m1.reply_serial ≠ 0 ∧ m1.error_name ≠ none)) →
      message_parse_fields m = .error (-EBADMSG)) := by
  unfold message_parse_fields
  rw [h]
  dsimp only
  by_cases hc : m1.root_container.signature.isEmpty ≠ decide (m1.body.length = 0)
  · rw [if_pos hc]
    have hnc : ¬(m1.root_container.signature = [] ↔ m1.body.length = 0) := by
      intro hiff
      exact hc ((isEmpty_eq_decide_iff _ _).mpr hiff)
    constructor
    · constructor
      · intro hx
        simp [Except.toOption] at hx
      · rintro ⟨hx, -⟩
        exact absurd hx hnc
    · intro _
      rfl
  · rw [if_neg hc]
    have hcons : m1.root_container.signature = [] ↔ m1.body.length = 0 := by
      have := not_not.mp (fun hne => hc hne)
      exact (isEmpty_eq_decide_iff _ _).mp this
    by_cases ht : message_type_reqs_ok m1 = true
    · rw [if_neg (by simp [ht])]
      obtain ⟨hr1, hr2, hr3, hr4⟩ := (message_type_reqs_ok_iff m1).mp ht
      constructor
      · constructor
        · intro _
          exact ⟨hcons, hr1, hr2, hr3, hr4⟩
        · intro _
          rfl
      · intro hno
        exact absurd ⟨hcons, hr1, hr2, hr3, hr4⟩ hno
    · rw [if_pos (by simp [ht])]
      have hnr : ¬(message_type_reqs_ok m1 = true) := ht
      rw [message_type_reqs_ok_iff] at hnr
      constructor
      · constructor
        · intro hx
          simp [Except.toOption] at hx
        · rintro ⟨-, h1, h2, h3, h4⟩
          exact absurd ⟨h1, h2, h3, h4⟩ hnr
      · intro _
        rfl

/-- Witness for C5: a sealed METHOD_RETURN skeleton whose fields hold
one REPLY_SERIAL entry (value 9) parses successfully. -/
theorem c5_witness :
    (message_parse_fields
      { message_new 2 with
        sealed := true
        fields := [5, 1, 117, 0, 9, 0, 0, 0] }).toOption.isSome = true := by
  exact (c5_parse_fields_reqs
    { message_new 2 with
      sealed := true
      fields := [5, 1, 117, 0, 9, 0, 0, 0] }
    { message_new 2 with
      sealed := true
      fields := [5, 1, 117, 0, 9, 0, 0, 0]
      reply_serial := 9 }
    (by rfl)).1.mpr
    ⟨by decide, by decide, by decide, by decide, by decide⟩

/-! ### C4: `message_new_reply` / `sd_bus_message_new_method_error` -/

theorem encU32_length (v : Nat) : (encU32 v).length = 4 := rfl

theorem message_append_field_string_eq (m : Message) (h t : Nat) (s : List Nat)
    (hs : s.length ≤ UINT32MAX)
    (hsz : alignTo m.fields.length 8 + (4 + 4 + s.length + 1) ≤ UINT32MAX) :
    message_append_field_string m h t s =
      ({ m with fields :=
          (m.fields ++ List.replicate (alignTo m.fields.length 8 - m.fields.length) 0) ++
          ([h, 1, t, 0] ++ encU32 s.length ++ s ++ [0]) }, 0) := by
  unfold message_append_field_string message_extend_fields
  rw [if_neg (by omega), buffer_extend_eq _ _ _ (by omega)]
  have hlen : ([h, 1, t, 0] ++ encU32 s.length ++ s ++ [0]).length =
      4 + 4 + s.length + 1 := by simp [encU32_length]; omega
  have hwb : writeBytes
      ((m.fields ++ List.replicate (alignTo m.fields.length 8 - m.fields.length) 0) ++
        List.replicate (4 + 4 + s.length + 1) 0)
      (m.fields ++ List.replicate (alignTo m.fields.length 8 - m.fields.length) 0).length
      ([h, 1, t, 0] ++ encU32 s.length ++ s ++ [0]) =
      (m.fields ++ List.replicate (alignTo m.fields.length 8 - m.fields.length) 0) ++
        ([h, 1, t, 0] ++ encU32 s.length ++ s ++ [0]) :=
    writeBytes_append_replicate _ _ _ hlen
  have hplen : (m.fields ++
      List.replicate (alignTo m.fields.length 8 - m.fields.length) 0).length =
      alignTo m.fields.length 8 := by
    have := le_alignTo m.fields.length 8 (by omega)
    simp
    omega
  rw [hplen] at hwb
  dsimp only
  rw [← List.append_assoc, hwb]
  simp [List.append_assoc]

theorem message_append_field_string_fail_len (m : Message) (h t : Nat) (s : List Nat)
    (hs : s.length > UINT32MAX) :
    message_append_field_string m h t s = (m, -EINVAL) := by
  unfold message_append_field_string
  rw [if_pos hs]

theorem message_append_field_string_fail_grow (m : Message) (h t : Nat) (s : List Nat)
    (hs : s.length ≤ UINT32MAX)
    (hsz : ¬alignTo m.fields.length 8 + (4 + 4 + s.length + 1) ≤ UINT32MAX) :
    message_append_field_string m h t s = (m, -ENOMEM) := by
  unfold message_append_field_string message_extend_fields buffer_extend
  rw [if_neg (by omega), if_pos (by omega)]

theorem message_append_field_uint32_eq (m : Message) (h x : Nat)
    (hsz : alignTo m.fields.length 8 + 8 ≤ UINT32MAX) :
    message_append_field_uint32 m h x =
      ({ m with fields :=
          (m.fields ++ List.replicate (alignTo m.fields.length 8 - m.fields.length) 0) ++
          ([h, 1, SD_BUS_TYPE_UINT32, 0] ++ encU32 x) }, 0) := by
  unfold message_append_field_uint32 message_extend_fields
  rw [buffer_extend_eq _ _ _ (by omega)]
  have hlen : ([h, 1, SD_BUS_TYPE_UINT32, 0] ++ encU32 x).length = 4 + 4 := by
    simp [encU32_length]
  have hwb : writeBytes
      ((m.fields ++ List.replicate (alignTo m.fields.length 8 - m.fields.length) 0) ++
        List.replicate (4 + 4) 0)
      (m.fields ++ List.replicate (alignTo m.fields.length 8 - m.fields.length) 0).length
      ([h, 1, SD_BUS_TYPE_UINT32, 0] ++ encU32 x) =
      (m.fields ++ List.replicate (alignTo m.fields.length 8 - m.fields.length) 0) ++
        ([h, 1, SD_BUS_TYPE_UINT32, 0] ++ encU32 x) :=
    writeBytes_append_replicate _ _ _ hlen
  have hplen : (m.fields ++
      List.replicate (alignTo m.fields.length 8 - m.fields.length) 0).length =
      alignTo m.fields.length 8 := by
    have := le_alignTo m.fields.length 8 (by omega)
    simp
    omega
  rw [hplen] at hwb
  dsimp only
  rw [← List.append_assoc, hwb]
  simp [List.append_assoc]

theorem message_append_field_uint32_nil (m : Message) (h x : Nat)
    (hf : m.fields = []) :
    message_append_field_uint32 m h x =
      ({ m with fields := [h, 1, SD_BUS_TYPE_UINT32, 0] ++ encU32 x }, 0) := by
  rw [message_append_field_uint32_eq m h x (by rw [hf]; decide)]
  simp [hf, alignTo]

theorem message_append_field_string_eq8 (m : Message) (h t : Nat) (s : List Nat)
    (hf : m.fields.length = 8) (hs : s.length ≤ UINT32MAX)
    (hsz : 8 + (4 + 4 + s.length + 1) ≤ UINT32MAX) :
    message_append_field_string m h t s =
      ({ m with fields := m.fields ++ ([h, 1, t, 0] ++ encU32 s.length ++ s ++ [0]) },
        0) := by
  have ha : alignTo m.fields.length 8 = 8 := by rw [hf]; decide
  rw [message_append_field_string_eq m h t s hs (by rw [ha]; omega)]
  simp [ha, hf, alignTo]

theorem message_new_reply_ok_conditions (call : Message) (btype : Nat) (t : Message)
    (h : message_new_reply call btype = .ok t) :
    call.sealed = true ∧ call.htype = SD_BUS_MESSAGE_TYPE_METHOD_CALL := by
  unfold message_new_reply at h
  by_cases hseal : call.sealed
  · by_cases hty : call.htype ≠ SD_BUS_MESSAGE_TYPE_METHOD_CALL
    · rw [if_neg (by simp [hseal]), if_pos hty] at h
      exact absurd h (by simp)
    · exact ⟨hseal, not_not.mp hty⟩
  · rw [if_pos (by simp [hseal])] at h
    exact absurd h (by simp)

/-- C4: `new_method_return` (via `message_new_reply`) and
`new_method_error` succeed only on a sealed METHOD_CALL (`-EPERM` when
unsealed, `-EINVAL` on a wrong type); on success the reply's
`reply_serial` is the call's (byte-swapped) serial, the no-reply flag
is set, and — when the call has a sender — the reply's header fields
consist of the REPLY_SERIAL field followed by a DESTINATION field
carrying the call's sender string. -/
theorem c4_new_reply (call : Message) :
    (∀ btype t, message_new_reply call btype = .ok t →
      call.sealed = true ∧ call.htype = SD_BUS_MESSAGE_TYPE_METHOD_CALL ∧
      t.reply_serial = BUS_MESSAGE_SERIAL call ∧
      t.flags &&& SD_BUS_MESSAGE_NO_REPLY_EXPECTED ≠ 0 ∧
      (∀ s, call.sender = some s →
        t.fields =
          ([SD_BUS_MESSAGE_HEADER_REPLY_SERIAL, 1, SD_BUS_TYPE_UINT32, 0] ++
            encU32 (BUS_MESSAGE_SERIAL call)) ++
          ([SD_BUS_MESSAGE_HEADER_DESTINATION, 1, SD_BUS_TYPE_STRING, 0] ++
            encU32 s.length ++ s ++ [0]))) ∧
    (call.sealed = false → ∀ btype,
      message_new_reply call btype = .error (-EPERM)) ∧
    (call.sealed = true → call.htype ≠ SD_BUS_MESSAGE_TYPE_METHOD_CALL → ∀ btype,
      message_new_reply call btype = .error (-EINVAL)) ∧
    (∀ e t, sd_bus_message_new_method_error call e = .ok t →
      call.sealed = true ∧ call.htype = SD_BUS_MESSAGE_TYPE_METHOD_CALL) := by
  refine ⟨?_, ?_, ?_, ?_⟩
  · intro btype t hok
    obtain ⟨hseal, hty⟩ := message_new_reply_ok_conditions call btype t hok
    refine ⟨hseal, hty, ?_⟩
    unfold message_new_reply at hok
    rw [if_neg (by simp [hseal]), if_neg (by simp [hty])] at hok
    dsimp only at hok
    rw [message_append_field_uint32_nil _ _ _ (by rfl)] at hok
    rw [chainAppend_ok] at hok
    obtain ⟨-, hok⟩ := hok
    dsimp only at hok
    rcases hsend : call.sender with _ | s
    · rw [hsend] at hok
      dsimp only at hok
      have ht := (Except.ok.inj hok).symm
      subst ht
      refine ⟨rfl, by simp only [message_new]; decide, ?_⟩
      intro s hs
      exact absurd hs (by simp)
    · rw [hsend] at hok
      dsimp only at hok
      by_cases hs1 : s.length > UINT32MAX
      · rw [message_append_field_string_fail_len _ _ _ _ hs1] at hok
        simp [chainAppend, EINVAL] at hok
      · by_cases hs2 : 8 + (4 + 4 + s.length + 1) ≤ UINT32MAX
        · rw [message_append_field_string_eq8 _ _ _ _ (by simp [encU32_length])
            (by omega) hs2] at hok
          rw [chainAppend_ok] at hok
          obtain ⟨-, hok⟩ := hok
          dsimp only at hok
          have ht := (Except.ok.inj hok).symm
          subst ht
          refine ⟨rfl, by simp only [message_new]; decide, ?_⟩
          intro s' hs'
          have hss : s = s' := Option.some.inj hs'
          subst hss
          simp [message_new, encU32_length, List.append_assoc]
        · have hgrow : ¬alignTo ([5, 1, 117, 0] ++
              encU32 (BUS_MESSAGE_SERIAL call)).length 8 + (4 + 4 + s.length + 1) ≤
              UINT32MAX := by
            have ha : alignTo ([5, 1, 117, 0] ++
                encU32 (BUS_MESSAGE_SERIAL call)).length 8 = 8 := by
              simp [encU32_length, alignTo]
            rw [ha]
            omega
          rw [message_append_field_string_fail_grow _ _ _ _ (by omega)
            (by simpa [encU32_length] using hgrow)] at hok
          simp [chainAppend, ENOMEM] at hok
  · intro hseal btype
    unfold message_new_reply
    rw [if_pos (by simp [hseal])]
  · intro hseal hty btype
    unfold message_new_reply
    rw [if_neg (by simp [hseal]), if_pos hty]
  · intro e t hok
    unfold sd_bus_message_new_method_error at hok
    by_cases hset : sd_bus_error_is_set e
    · rw [if_neg (by simp [hset])] at hok
      rcases hrep : message_new_reply call SD_BUS_MESSAGE_TYPE_METHOD_ERROR
          with e' | tr
      · rw [hrep] at hok
        exact absurd hok (by simp)
      · exact message_new_reply_ok_conditions call _ _ hrep
    · rw [if_pos (by simp [hset])] at hok
      exact absurd hok (by simp)

/-- Witness for C4: a concrete sealed METHOD_CALL with serial 100 and
sender `":1"` yields a reply whose reply-serial is 100 and whose
header fields carry the sender as DESTINATION. -/
theorem c4_witness :
    (message_new_reply
      { message_new 1 with sealed := true, serial := 100, sender := some [58, 49] }
      SD_BUS_MESSAGE_TYPE_METHOD_RETURN).toOption.isSome = true ∧
    (∀ t, message_new_reply
        { message_new 1 with sealed := true, serial := 100, sender := some [58, 49] }
        SD_BUS_MESSAGE_TYPE_METHOD_RETURN = .ok t →
      t.reply_serial = 100 ∧
      t.fields = [5, 1, 117, 0, 100, 0, 0, 0, 6, 1, 115, 0, 2, 0, 0, 0, 58, 49, 0]) := by
  constructor
  · decide
  · intro t hok
    obtain ⟨-, -, hrs, -, hfields⟩ := (c4_new_reply
      { message_new 1 with sealed := true, serial := 100, sender := some [58, 49] }).1
      SD_BUS_MESSAGE_TYPE_METHOD_RETURN t hok
    constructor
    · rw [hrs]
      decide
    · rw [hfields [58, 49] rfl]
      decide

/-! ### C3: container depth bound -/

set_option maxRecDepth 100000

/-- Counterexample for C3 as stated: on the BUILD path
`sd_bus_message_open_container` enforces no depth limit — opening a 65th
nested VARIANT container succeeds (returns 0 and a 65-deep container
stack) instead of failing with invalid-argument. -/
theorem c3_counterexample :
    (open_variants 65).2 = 0 ∧ (open_variants 65).1.containers.length = 65 := by
  decide

/-- C3 (amended): the depth bound is enforced only on the PARSE path:
`sd_bus_message_enter_container` fails with `-EBADMSG` for any sealed
message that already has `BUS_CONTAINER_DEPTH` (64) containers open,
whatever type and contents are requested; on a sealed message carrying
65 nested variants, 64 consecutive enters succeed and the 65th fails
with `-EBADMSG`.  The build path performs no depth check (see the
counterexample). -/
theorem c3_depth_bound :
    (∀ (m : Message) (t : Nat) (contents : List Nat), m.sealed = true →
      m.containers.length ≥ BUS_CONTAINER_DEPTH →
      sd_bus_message_enter_container m t contents = (m, -EBADMSG)) ∧
    nested_variants_sealed.2 = 0 ∧
    (enter_variants 64).2 = 1 ∧
    (enter_variants 64).1.containers.length = 64 ∧
    (sd_bus_message_enter_container (enter_variants 64).1 SD_BUS_TYPE_VARIANT
      [SD_BUS_TYPE_BYTE]).2 = -EBADMSG := by
  constructor
  · intro m t contents hs hd
    unfold sd_bus_message_enter_container
    rw [if_neg (by simp [hs]), if_pos hd]
  · decide

/-- Witness for C3: the general depth-failure clause applied at the
concrete 64-deep parse state, with an unrelated container type. -/
theorem c3_witness :
    sd_bus_message_enter_container (enter_variants 64).1 SD_BUS_TYPE_STRUCT
      [SD_BUS_TYPE_BYTE] = ((enter_variants 64).1, -EBADMSG) :=
  c3_depth_bound.1 (enter_variants 64).1 SD_BUS_TYPE_STRUCT [SD_BUS_TYPE_BYTE]
    (by decide) (by decide)

/-! ### C1: basic-value round trip -/

theorem readU16le_encU16 (v : Nat) : readU16le (encU16 v) 0 = v % 65536 := by
  show v % 256 + 256 * (v / 256 % 256) = v % 65536
  omega

theorem readU32le_encU32 (v : Nat) : readU32le (encU32 v) 0 = v % POW32 := by
  show v % 256 + 256 * (v / 256 % 256) + 65536 * (v / 65536 % 256) +
    16777216 * (v / 16777216 % 256) = v % 4294967296
  omega

theorem readU64le_encU64 (v : Nat) :
    readU64le (encU64 v) 0 = v % 18446744073709551616 := by
  have h : readU64le (encU64 v) 0 =
      readU32le (encU32 (v % POW32)) 0 +
        POW32 * readU32le (encU32 (v / POW32 % POW32)) 0 := rfl
  rw [h, readU32le_encU32, readU32le_encU32]
  simp only [POW32]
  omega

/-- `bus_message_seal` on an unsealed message with no open containers,
a non-empty root signature and no fds: the SIGNATURE header field is
appended and the serial stored truncated. -/
theorem seal_eq_of_sig (m : Message) (serial : Nat)
    (hs : m.sealed = false) (hc : m.containers = [])
    (hsig : m.root_container.signature ≠ [])
    (h255 : m.root_container.signature.length ≤ 255)
    (hsz : alignTo m.fields.length 8 +
      (4 + 1 + m.root_container.signature.length + 1) ≤ UINT32MAX)
    (hfd : m.n_fds = 0) :
    bus_message_seal m serial =
      ({ m with
          fields :=
            (m.fields ++
              List.replicate (alignTo m.fields.length 8 - m.fields.length) 0) ++
            ([SD_BUS_MESSAGE_HEADER_SIGNATURE, 1, SD_BUS_TYPE_SIGNATURE, 0,
              m.root_container.signature.length] ++ m.root_container.signature ++ [0])
          serial := serial % POW32
          sealed := true }, 0) := by
  have happ := message_append_field_signature_eq m SD_BUS_MESSAGE_HEADER_SIGNATURE
    m.root_container.signature h255 hsz
  simp [bus_message_seal, hs, hc, hfd, List.isEmpty_iff, hsig, happ]

theorem readU32le_encU32_append (v : Nat) (r : List Nat) :
    readU32le (encU32 v ++ r) 0 = v % POW32 := by
  have h : readU32le (encU32 v ++ r) 0 =
      v % 256 + 256 * (v / 256 % 256) + 65536 * (v / 65536 % 256) +
        16777216 * (v / 16777216 % 256) := by
    with_unfolding_all rfl
  rw [h]
  simp only [POW32]
  omega

theorem alignTo_one (x : Nat) : alignTo x 1 = x := by
  unfold alignTo
  omega

theorem alignTo_le_add7 (x : Nat) : alignTo x 8 ≤ x + 7 := by
  unfold alignTo
  rw [show x + 8 - 1 = x + 7 from by omega]
  exact Nat.div_mul_le_self (x + 7) 8

theorem getByte_replicate_zero (p j : Nat) :
    getByte (List.replicate p (0 : Nat)) j = 0 := by
  induction p generalizing j with
  | zero => simp [getByte]
  | succ n ih =>
    rw [List.replicate_succ]
    cases j with
    | zero => rfl
    | succ j => exact ih j

theorem getByte_append_zero (xs ys : List Nat) :
    getByte (xs ++ ys) xs.length = getByte ys 0 := by
  have h := getByte_append_right xs ys 0
  rwa [Nat.add_zero] at h

theorem readU16le_append_zero (xs ys : List Nat) :
    readU16le (xs ++ ys) xs.length = readU16le ys 0 := by
  unfold readU16le
  rw [getByte_append_zero, getByte_append_right xs ys 1]

theorem readU32le_append_zero (xs ys : List Nat) :
    readU32le (xs ++ ys) xs.length = readU32le ys 0 := by
  unfold readU32le
  rw [getByte_append_zero, getByte_append_right xs ys 1,
    getByte_append_right xs ys 2, getByte_append_right xs ys 3]

theorem readU64le_append_zero (xs ys : List Nat) :
    readU64le (xs ++ ys) xs.length = readU64le ys 0 := by
  have h4 : readU32le (xs ++ ys) (xs.length + 4) = readU32le ys 4 := by
    unfold readU32le
    rw [getByte_append_right xs ys 4,
      show xs.length + 4 + 1 = xs.length + 5 from by omega,
      getByte_append_right xs ys 5,
      show xs.length + 4 + 2 = xs.length + 6 from by omega,
      getByte_append_right xs ys 6,
      show xs.length + 4 + 3 = xs.length + 7 from by omega,
      getByte_append_right xs ys 7]
  unfold readU64le
  rw [readU32le_append_zero, h4]

theorem message_end_false (m : Message) (i : Nat)
    (hc : m.containers = []) (hasz : m.root_container.array_size = none) :
    message_end_of_array m i = false := by
  simp [message_end_of_array, message_get_container, hc, hasz]

/-- `message_peek_body` at the end of a body of the form
`prior ++ padding ++ rest`: the cursor aligns over the zero padding and
lands on `rest`. -/
theorem message_peek_body_gen (m : Message) (b : List Nat) (align nbytes : Nat)
    (rest : List Nat)
    (hc : m.containers = []) (hasz : m.root_container.array_size = none)
    (hbody : m.body = (b ++
      List.replicate (alignTo b.length align - b.length) 0) ++ rest)
    (ha : 0 < align) (hn : nbytes ≤ rest.length) :
    message_peek_body m b.length align nbytes =
      (1, alignTo b.length align + nbytes, alignTo b.length align) := by
  have hplen : (b ++
      List.replicate (alignTo b.length align - b.length) 0).length =
      alignTo b.length align := by
    have := le_alignTo b.length align ha
    simp
    omega
  simp only [message_peek_body, message_end_false m b.length hc hasz]
  rw [if_neg (by simp)]
  simp only [buffer_peek]
  rw [if_neg (by
    rw [hbody]
    simp only [List.length_append, hplen]
    omega)]
  rw [if_pos (by
    rw [List.all_eq_true]
    intro k hk
    rw [List.mem_range'_1] at hk
    simp only [decide_eq_true_eq]
    obtain ⟨hk1, hk2⟩ := hk
    have hks : k < alignTo b.length align := by
      have := le_alignTo b.length align ha
      omega
    rw [hbody, getByte_append_left _ _ _ (by rw [hplen]; exact hks)]
    rw [show k = b.length + (k - b.length) from by omega, getByte_append_right,
      getByte_replicate_zero])]

/-- `message_peek_body` with alignment 1 in range. -/
theorem message_peek_body_one (m : Message) (r nbytes : Nat)
    (hc : m.containers = []) (hasz : m.root_container.array_size = none)
    (hn : r + nbytes ≤ m.body.length) :
    message_peek_body m r 1 nbytes = (1, r + nbytes, r) := by
  simp only [message_peek_body, message_end_false m r hc hasz]
  rw [if_neg (by simp)]
  simp only [buffer_peek, alignTo_one]
  rw [if_neg (by omega)]
  rw [if_pos (by simp)]

/-- `message_peek_body` with alignment 1 overrunning the body. -/
theorem message_peek_body_one_fail (m : Message) (r nbytes : Nat)
    (hc : m.containers = []) (hasz : m.root_container.array_size = none)
    (hn : r + nbytes > m.body.length) :
    message_peek_body m r 1 nbytes = (- EBADMSG, r, 0) := by
  simp only [message_peek_body, message_end_false m r hc hasz]
  rw [if_neg (by simp)]
  simp only [buffer_peek, alignTo_one]
  rw [if_pos (by omega)]

/-- `message_extend_body` with no open containers. -/
theorem message_extend_body_root (m : Message) (align sz : Nat)
    (hc : m.containers = [])
    (hsz : alignTo m.body.length align + sz ≤ UINT32MAX) :
    message_extend_body m align sz =
      some ({ m with body := m.body ++
        List.replicate (alignTo m.body.length align - m.body.length) 0 ++
        List.replicate sz 0 }, alignTo m.body.length align) := by
  simp only [message_extend_body, buffer_extend_eq m.body align sz hsz, hc]
  simp

/-- `message_append_basic` on an unsealed message writing at the root
container with the signature cursor at its end: the signature is
extended by `t` and the wire bytes are appended to the aligned body. -/
theorem append_basic_root_extend (m : Message) (t : Nat) (p : Option BasicVal)
    (sig : List Nat) (align sz : Nat) (bytes : List Nat)
    (hbt : bus_type_is_basic t = true)
    (hm : m.sealed = false) (hc : m.containers = [])
    (hroot : m.root_container = ⟨0, sig, sig.length, none, 0⟩)
    (hp : p ≠ none)
    (henc : basic_wire_enc t p = some (align, sz, bytes))
    (hblen : bytes.length = sz) (hal : 0 < align)
    (hsz : alignTo m.body.length align + sz ≤ UINT32MAX) :
    message_append_basic m t p =
      some ({ m with
        body := (m.body ++
          List.replicate (alignTo m.body.length align - m.body.length) 0) ++ bytes
        root_container := ⟨0, sig ++ [t], sig.length + 1, none, 0⟩ }, 0) := by
  have hgc : message_get_container m = ⟨0, sig, sig.length, none, 0⟩ := by
    simp [message_get_container, hc, hroot]
  have hsig0 : sigAt (⟨0, sig, sig.length, none, 0⟩ : BusContainer) = 0 := by
    simp [sigAt, getByte, List.getD_eq_default]
  have hplen : (m.body ++
      List.replicate (alignTo m.body.length align - m.body.length) 0).length =
      alignTo m.body.length align := by
    have := le_alignTo m.body.length align hal
    simp
    omega
  have hwb := writeBytes_append_replicate
    (m.body ++ List.replicate (alignTo m.body.length align - m.body.length) 0)
    sz bytes hblen
  rw [hplen] at hwb
  simp only [message_append_basic]
  rw [if_neg (by simp [hm]), if_neg (by simp [hbt])]
  rw [hgc]
  dsimp only
  rw [hsig0]
  rw [if_neg (by simp), if_neg (by simp)]
  simp only [message_append_basic_write]
  rw [if_neg (by simp [hp]), henc]
  dsimp only
  rw [message_extend_body_root (message_set_container m
      ⟨0, sig ++ [t], sig.length, none, 0⟩) align sz
    (by simp [message_set_container, hc])
    (by simpa [message_set_container, hc] using hsz)]
  dsimp only
  rw [if_pos (by decide)]
  simp only [message_set_container, hc]
  rw [hwb]

/-- Existential form of `append_basic_root_extend`, recording the
fields of the post-append message. -/
theorem append_extend_exists (m : Message) (t : Nat) (p : Option BasicVal)
    (sig : List Nat) (align sz : Nat) (bytes : List Nat)
    (hbt : bus_type_is_basic t = true)
    (hm : m.sealed = false) (hc : m.containers = [])
    (hroot : m.root_container = ⟨0, sig, sig.length, none, 0⟩)
    (hp : p ≠ none)
    (henc : basic_wire_enc t p = some (align, sz, bytes))
    (hblen : bytes.length = sz) (hal : 0 < align)
    (hsz : alignTo m.body.length align + sz ≤ UINT32MAX) :
    ∃ m1, message_append_basic m t p = some (m1, 0) ∧
      m1.sealed = m.sealed ∧ m1.bswap = m.bswap ∧ m1.containers = [] ∧
      m1.fields = m.fields ∧ m1.n_fds = m.n_fds ∧
      m1.root_container = ⟨0, sig ++ [t], sig.length + 1, none, 0⟩ ∧
      m1.body = (m.body ++
        List.replicate (alignTo m.body.length align - m.body.length) 0) ++ bytes := by
  refine ⟨{ m with
      body := (m.body ++
        List.replicate (alignTo m.body.length align - m.body.length) 0) ++ bytes
      root_container := ⟨0, sig ++ [t], sig.length + 1, none, 0⟩ },
    append_basic_root_extend m t p sig align sz bytes hbt hm hc hroot hp henc
      hblen hal hsz, ?_, ?_, ?_, ?_, ?_, ?_, ?_⟩ <;> simp [hc]

/-- `bus_message_seal` succeeds on an unsealed message with no open
containers and a non-empty, representable root signature — whether or
not fds are attached — leaving the body and root container untouched. -/
theorem seal_ok_exists (m : Message) (serial : Nat)
    (hs : m.sealed = false) (hc : m.containers = [])
    (hsig : m.root_container.signature ≠ [])
    (h255 : m.root_container.signature.length ≤ 255)
    (hsz : alignTo m.fields.length 8 +
      (4 + 1 + m.root_container.signature.length + 1) + 16 ≤ UINT32MAX) :
    ∃ m2, bus_message_seal m serial = (m2, 0) ∧ m2.sealed = true ∧
      m2.bswap = m.bswap ∧ m2.containers = [] ∧
      m2.root_container = m.root_container ∧ m2.body = m.body := by
  by_cases hfd : m.n_fds = 0
  · refine ⟨{ m with
        fields :=
          (m.fields ++
            List.replicate (alignTo m.fields.length 8 - m.fields.length) 0) ++
          ([SD_BUS_MESSAGE_HEADER_SIGNATURE, 1, SD_BUS_TYPE_SIGNATURE, 0,
            m.root_container.signature.length] ++ m.root_container.signature ++ [0])
        serial := serial % POW32
        sealed := true },
      seal_eq_of_sig m serial hs hc hsig h255 (by omega) hfd,
      ?_, ?_, ?_, ?_, ?_⟩ <;> simp [hc]
  · have happ := message_append_field_signature_eq m SD_BUS_MESSAGE_HEADER_SIGNATURE
      m.root_container.signature h255 (by omega)
    have hflen : ((m.fields ++
        List.replicate (alignTo m.fields.length 8 - m.fields.length) 0) ++
        ([SD_BUS_MESSAGE_HEADER_SIGNATURE, 1, SD_BUS_TYPE_SIGNATURE, 0,
          m.root_container.signature.length] ++ m.root_container.signature ++
          [0])).length =
        alignTo m.fields.length 8 +
          (4 + 1 + m.root_container.signature.length + 1) := by
      have := le_alignTo m.fields.length 8 (by omega)
      simp
      omega
    have happ2 := message_append_field_uint32_eq
      ({ m with fields := (m.fields ++
          List.replicate (alignTo m.fields.length 8 - m.fields.length) 0) ++
          ([SD_BUS_MESSAGE_HEADER_SIGNATURE, 1, SD_BUS_TYPE_SIGNATURE, 0,
            m.root_container.signature.length] ++ m.root_container.signature ++
            [0]) })
      SD_BUS_MESSAGE_HEADER_UNIX_FDS m.n_fds
      (by
        dsimp only
        rw [hflen]
        have hb := alignTo_le_add7 (alignTo m.fields.length 8 +
          (4 + 1 + m.root_container.signature.length + 1))
        omega)
    rcases hseal : bus_message_seal m serial with ⟨m2, r2⟩
    have htr := hseal
    simp only [bus_message_seal] at htr
    rw [if_neg (by simp [hs]), if_neg (by simp [hc])] at htr
    rw [if_pos (show ¬m.root_container.signature.isEmpty = true from
      by simp [List.isEmpty_iff, hsig])] at htr
    rw [happ] at htr
    dsimp only at htr
    rw [if_neg (by decide)] at htr
    rw [if_pos (show m.n_fds > 0 from Nat.pos_of_ne_zero hfd)] at htr
    rw [happ2] at htr
    dsimp only at htr
    rw [if_neg (by decide)] at htr
    obtain ⟨h1, h2⟩ := Prod.mk.injEq _ _ _ _ |>.mp htr
    subst h2
    subst h1
    refine ⟨_, rfl, ?_, ?_, ?_, ?_, ?_⟩ <;> simp [hc]

/-- Read one BYTE from a sealed message whose body is `b` followed by
the stored byte, with the cursor at the value. -/
theorem read_at_byte (m : Message) (sig : List Nat) (v : Nat) (b : List Nat)
    (hs : m.sealed = true) (hc : m.containers = [])
    (hroot : m.root_container =
      ⟨0, sig ++ [SD_BUS_TYPE_BYTE], sig.length, none, 0⟩)
    (hri : m.rindex = b.length)
    (hbody : m.body = b ++ [v % 256]) :
    sd_bus_message_read_basic m SD_BUS_TYPE_BYTE =
      some ({ m with
          rindex := b.length + 1
          root_container :=
            ⟨0, sig ++ [SD_BUS_TYPE_BYTE], sig.length + 1, none, 0⟩ }, 1,
        some (BasicVal.num (v % 256))) := by
  have hgc : message_get_container m =
      ⟨0, sig ++ [SD_BUS_TYPE_BYTE], sig.length, none, 0⟩ := by
    simp [message_get_container, hc, hroot]
  have hsigat : sigAt
      (⟨0, sig ++ [SD_BUS_TYPE_BYTE], sig.length, none, 0⟩ : BusContainer) =
      SD_BUS_TYPE_BYTE := by
    simp only [sigAt]
    rw [getByte_append_zero]
    with_unfolding_all rfl
  have hpeek := message_peek_body_one m b.length 1 hc (by rw [hroot])
    (by rw [hbody]; simp)
  have hdec : getByte m.body b.length = v % 256 := by
    rw [hbody, getByte_append_zero]
    with_unfolding_all rfl
  simp only [sd_bus_message_read_basic]
  rw [if_neg (by simp [hs]), if_neg (by decide)]
  rw [hgc, hsigat]
  rw [if_neg (by decide), if_neg (by simp), if_neg (by decide),
    if_neg (by decide)]
  rw [hri]
  rw [show (bus_type_get_alignment SD_BUS_TYPE_BYTE).toNat = 1 from by decide,
    show (bus_type_get_size SD_BUS_TYPE_BYTE).toNat = 1 from by decide]
  rw [hpeek]
  dsimp only
  rw [if_neg (by decide)]
  rw [if_pos (by decide)]
  rw [hdec]
  rw [if_pos (by decide)]
  simp [message_set_container, hc]

/-- Read one BOOLEAN back: the stored word `w` is re-coerced to 0/1. -/
theorem read_at_bool (m : Message) (sig : List Nat) (w : Nat) (b : List Nat)
    (hs : m.sealed = true) (hbw : m.bswap = false) (hc : m.containers = [])
    (hroot : m.root_container =
      ⟨0, sig ++ [SD_BUS_TYPE_BOOLEAN], sig.length, none, 0⟩)
    (hri : m.rindex = b.length)
    (hbody : m.body = (b ++
      List.replicate (alignTo b.length 4 - b.length) 0) ++ encU32 w) :
    sd_bus_message_read_basic m SD_BUS_TYPE_BOOLEAN =
      some ({ m with
          rindex := alignTo b.length 4 + 4
          root_container :=
            ⟨0, sig ++ [SD_BUS_TYPE_BOOLEAN], sig.length + 1, none, 0⟩ }, 1,
        some (BasicVal.num (if w % POW32 ≠ 0 then 1 else 0))) := by
  have hplen : (b ++ List.replicate (alignTo b.length 4 - b.length) 0).length =
      alignTo b.length 4 := by
    have := le_alignTo b.length 4 (by omega)
    simp
    omega
  have hgc : message_get_container m =
      ⟨0, sig ++ [SD_BUS_TYPE_BOOLEAN], sig.length, none, 0⟩ := by
    simp [message_get_container, hc, hroot]
  have hsigat : sigAt
      (⟨0, sig ++ [SD_BUS_TYPE_BOOLEAN], sig.length, none, 0⟩ : BusContainer) =
      SD_BUS_TYPE_BOOLEAN := by
    simp only [sigAt]
    rw [getByte_append_zero]
    with_unfolding_all rfl
  have hpeek := message_peek_body_gen m b 4 4 (encU32 w) hc (by rw [hroot])
    hbody (by omega) (by simp [encU32])
  have hdec : readU32le m.body (alignTo b.length 4) = w % POW32 := by
    have h0 := readU32le_append_zero
      (b ++ List.replicate (alignTo b.length 4 - b.length) 0) (encU32 w)
    rw [hplen] at h0
    rw [hbody, h0, readU32le_encU32]
  simp only [sd_bus_message_read_basic]
  rw [if_neg (by simp [hs]), if_neg (by decide)]
  rw [hgc, hsigat]
  rw [if_neg (by decide), if_neg (by simp), if_neg (by decide),
    if_neg (by decide)]
  rw [hri]
  rw [show (bus_type_get_alignment SD_BUS_TYPE_BOOLEAN).toNat = 4 from by decide,
    show (bus_type_get_size SD_BUS_TYPE_BOOLEAN).toNat = 4 from by decide]
  rw [hpeek]
  dsimp only
  rw [if_neg (by decide)]
  rw [if_neg (by decide), if_pos (by decide)]
  simp only [hdec]
  rw [if_pos (by decide)]
  simp [message_set_container, hc]

/-- Read one INT16/UINT16 back. -/
theorem read_at_fixed16 (m : Message) (sig : List Nat) (t v : Nat) (b : List Nat)
    (ht : t = SD_BUS_TYPE_INT16 ∨ t = SD_BUS_TYPE_UINT16)
    (hs : m.sealed = true) (hbw : m.bswap = false) (hc : m.containers = [])
    (hroot : m.root_container = ⟨0, sig ++ [t], sig.length, none, 0⟩)
    (hri : m.rindex = b.length)
    (hbody : m.body = (b ++
      List.replicate (alignTo b.length 2 - b.length) 0) ++ encU16 v) :
    sd_bus_message_read_basic m t =
      some ({ m with
          rindex := alignTo b.length 2 + 2
          root_container := ⟨0, sig ++ [t], sig.length + 1, none, 0⟩ }, 1,
        some (BasicVal.num (v % 65536))) := by
  have hplen : (b ++ List.replicate (alignTo b.length 2 - b.length) 0).length =
      alignTo b.length 2 := by
    have := le_alignTo b.length 2 (by omega)
    simp
    omega
  have hgc : message_get_container m = ⟨0, sig ++ [t], sig.length, none, 0⟩ := by
    simp [message_get_container, hc, hroot]
  have hsigat : sigAt (⟨0, sig ++ [t], sig.length, none, 0⟩ : BusContainer) = t := by
    simp only [sigAt]
    rw [getByte_append_zero]
    with_unfolding_all rfl
  have hpeek := message_peek_body_gen m b 2 2 (encU16 v) hc (by rw [hroot])
    hbody (by omega) (by simp [encU16])
  have hdec : BUS_MESSAGE_BSWAP16 m (readU16le m.body (alignTo b.length 2)) =
      v % 65536 := by
    have h0 := readU16le_append_zero
      (b ++ List.replicate (alignTo b.length 2 - b.length) 0) (encU16 v)
    rw [hplen] at h0
    rw [hbody, h0, readU16le_encU16]
    simp [BUS_MESSAGE_BSWAP16, hbw]
  have hbt : bus_type_is_basic t = true := by rcases ht with rfl | rfl <;> decide
  have h0t : t ≠ 0 := by rcases ht with rfl | rfl <;> decide
  have hso : ¬(t = SD_BUS_TYPE_STRING ∨ t = SD_BUS_TYPE_OBJECT_PATH) := by
    rcases ht with rfl | rfl <;> decide
  have hg : t ≠ SD_BUS_TYPE_SIGNATURE := by rcases ht with rfl | rfl <;> decide
  have hy : t ≠ SD_BUS_TYPE_BYTE := by rcases ht with rfl | rfl <;> decide
  have hb2 : t ≠ SD_BUS_TYPE_BOOLEAN := by rcases ht with rfl | rfl <;> decide
  have hal2 : (bus_type_get_alignment t).toNat = 2 := by
    rcases ht with rfl | rfl <;> decide
  have hsz2 : (bus_type_get_size t).toNat = 2 := by
    rcases ht with rfl | rfl <;> decide
  simp only [sd_bus_message_read_basic]
  rw [if_neg (by simp [hs]), if_neg (by simp [hbt])]
  rw [hgc, hsigat]
  rw [if_neg h0t, if_neg (by simp), if_neg hso, if_neg hg]
  rw [hri, hal2, hsz2]
  rw [hpeek]
  dsimp only
  rw [if_neg (by decide)]
  rw [if_neg hy, if_neg hb2, if_pos ht]
  rw [hdec]
  rw [if_pos (by decide)]
  simp [message_set_container, hc]

/-- Read one INT32/UINT32 back. -/
theorem read_at_fixed32 (m : Message) (sig : List Nat) (t v : Nat) (b : List Nat)
    (ht : t = SD_BUS_TYPE_INT32 ∨ t = SD_BUS_TYPE_UINT32)
    (hs : m.sealed = true) (hbw : m.bswap = false) (hc : m.containers = [])
    (hroot : m.root_container = ⟨0, sig ++ [t], sig.length, none, 0⟩)
    (hri : m.rindex = b.length)
    (hbody : m.body = (b ++
      List.replicate (alignTo b.length 4 - b.length) 0) ++ encU32 v) :
    sd_bus_message_read_basic m t =
      some ({ m with
          rindex := alignTo b.length 4 + 4
          root_container := ⟨0, sig ++ [t], sig.length + 1, none, 0⟩ }, 1,
        some (BasicVal.num (v % POW32))) := by
  have hplen : (b ++ List.replicate (alignTo b.length 4 - b.length) 0).length =
      alignTo b.length 4 := by
    have := le_alignTo b.length 4 (by omega)
    simp
    omega
  have hgc : message_get_container m = ⟨0, sig ++ [t], sig.length, none, 0⟩ := by
    simp [message_get_container, hc, hroot]
  have hsigat : sigAt (⟨0, sig ++ [t], sig.length, none, 0⟩ : BusContainer) = t := by
    simp only [sigAt]
    rw [getByte_append_zero]
    with_unfolding_all rfl
  have hpeek := message_peek_body_gen m b 4 4 (encU32 v) hc (by rw [hroot])
    hbody (by omega) (by simp [encU32])
  have hdec : BUS_MESSAGE_BSWAP32 m (readU32le m.body (alignTo b.length 4)) =
      v % POW32 := by
    have h0 := readU32le_append_zero
      (b ++ List.replicate (alignTo b.length 4 - b.length) 0) (encU32 v)
    rw [hplen] at h0
    rw [hbody, h0, readU32le_encU32]
    simp [BUS_MESSAGE_BSWAP32, hbw]
  have hbt : bus_type_is_basic t = true := by rcases ht with rfl | rfl <;> decide
  have h0t : t ≠ 0 := by rcases ht with rfl | rfl <;> decide
  have hso : ¬(t = SD_BUS_TYPE_STRING ∨ t = SD_BUS_TYPE_OBJECT_PATH) := by
    rcases ht with rfl | rfl <;> decide
  have hg : t ≠ SD_BUS_TYPE_SIGNATURE := by rcases ht with rfl | rfl <;> decide
  have hy : t ≠ SD_BUS_TYPE_BYTE := by rcases ht with rfl | rfl <;> decide
  have hb2 : t ≠ SD_BUS_TYPE_BOOLEAN := by rcases ht with rfl | rfl <;> decide
  have h16 : ¬(t = SD_BUS_TYPE_INT16 ∨ t = SD_BUS_TYPE_UINT16) := by
    rcases ht with rfl | rfl <;> decide
  have hal4 : (bus_type_get_alignment t).toNat = 4 := by
    rcases ht with rfl | rfl <;> decide
  have hsz4 : (bus_type_get_size t).toNat = 4 := by
    rcases ht with rfl | rfl <;> decide
  simp only [sd_bus_message_read_basic]
  rw [if_neg (by simp [hs]), if_neg (by simp [hbt])]
  rw [hgc, hsigat]
  rw [if_neg h0t, if_neg (by simp), if_neg hso, if_neg hg]
  rw [hri, hal4, hsz4]
  rw [hpeek]
  dsimp only
  rw [if_neg (by decide)]
  rw [if_neg hy, if_neg hb2, if_neg h16, if_pos ht]
  rw [hdec]
  rw [if_pos (by decide)]
  simp [message_set_container, hc]

/-- Read one INT64/UINT64/DOUBLE back. -/
theorem read_at_fixed64 (m : Message) (sig : List Nat) (t v : Nat) (b : List Nat)
    (ht : t = SD_BUS_TYPE_INT64 ∨ t = SD_BUS_TYPE_UINT64 ∨
      t = SD_BUS_TYPE_DOUBLE)
    (hs : m.sealed = true) (hbw : m.bswap = false) (hc : m.containers = [])
    (hroot : m.root_container = ⟨0, sig ++ [t], sig.length, none, 0⟩)
    (hri : m.rindex = b.length)
    (hbody : m.body = (b ++
      List.replicate (alignTo b.length 8 - b.length) 0) ++ encU64 v) :
    sd_bus_message_read_basic m t =
      some ({ m with
          rindex := alignTo b.length 8 + 8
          root_container := ⟨0, sig ++ [t], sig.length + 1, none, 0⟩ }, 1,
        some (BasicVal.num (v % 18446744073709551616))) := by
  have hplen : (b ++ List.replicate (alignTo b.length 8 - b.length) 0).length =
      alignTo b.length 8 := by
    have := le_alignTo b.length 8 (by omega)
    simp
    omega
  have hgc : message_get_container m = ⟨0, sig ++ [t], sig.length, none, 0⟩ := by
    simp [message_get_container, hc, hroot]
  have hsigat : sigAt (⟨0, sig ++ [t], sig.length, none, 0⟩ : BusContainer) = t := by
    simp only [sigAt]
    rw [getByte_append_zero]
    with_unfolding_all rfl
  have hpeek := message_peek_body_gen m b 8 8 (encU64 v) hc (by rw [hroot])
    hbody (by omega) (by simp [encU64, encU32])
  have hdec : BUS_MESSAGE_BSWAP64 m (readU64le m.body (alignTo b.length 8)) =
      v % 18446744073709551616 := by
    have h0 := readU64le_append_zero
      (b ++ List.replicate (alignTo b.length 8 - b.length) 0) (encU64 v)
    rw [hplen] at h0
    rw [hbody, h0, readU64le_encU64]
    simp [BUS_MESSAGE_BSWAP64, hbw]
  have hbt : bus_type_is_basic t = true := by
    rcases ht with rfl | rfl | rfl <;> decide
  have h0t : t ≠ 0 := by rcases ht with rfl | rfl | rfl <;> decide
  have hso : ¬(t = SD_BUS_TYPE_STRING ∨ t = SD_BUS_TYPE_OBJECT_PATH) := by
    rcases ht with rfl | rfl | rfl <;> decide
  have hg : t ≠ SD_BUS_TYPE_SIGNATURE := by
    rcases ht with rfl | rfl | rfl <;> decide
  have hy : t ≠ SD_BUS_TYPE_BYTE := by rcases ht with rfl | rfl | rfl <;> decide
  have hb2 : t ≠ SD_BUS_TYPE_BOOLEAN := by
    rcases ht with rfl | rfl | rfl <;> decide
  have h16 : ¬(t = SD_BUS_TYPE_INT16 ∨ t = SD_BUS_TYPE_UINT16) := by
    rcases ht with rfl | rfl | rfl <;> decide
  have h32 : ¬(t = SD_BUS_TYPE_INT32 ∨ t = SD_BUS_TYPE_UINT32) := by
    rcases ht with rfl | rfl | rfl <;> decide
  have hal8 : (bus_type_get_alignment t).toNat = 8 := by
    rcases ht with rfl | rfl | rfl <;> decide
  have hsz8 : (bus_type_get_size t).toNat = 8 := by
    rcases ht with rfl | rfl | rfl <;> decide
  simp only [sd_bus_message_read_basic]
  rw [if_neg (by simp [hs]), if_neg (by simp [hbt])]
  rw [hgc, hsigat]
  rw [if_neg h0t, if_neg (by simp), if_neg hso, if_neg hg]
  rw [hri, hal8, hsz8]
  rw [hpeek]
  dsimp only
  rw [if_neg (by decide)]
  rw [if_neg hy, if_neg hb2, if_neg h16, if_neg h32, if_pos ht]
  rw [hdec]
  rw [if_pos (by decide)]
  simp [message_set_container, hc]

/-- Read one STRING/OBJECT_PATH back: the value must be NUL-free and
valid for its type (checked at read time). -/
theorem read_at_str (m : Message) (sig : List Nat) (t : Nat) (s b : List Nat)
    (ht : t = SD_BUS_TYPE_STRING ∨ t = SD_BUS_TYPE_OBJECT_PATH)
    (hs : m.sealed = true) (hbw : m.bswap = false) (hc : m.containers = [])
    (hroot : m.root_container = ⟨0, sig ++ [t], sig.length, none, 0⟩)
    (hri : m.rindex = b.length)
    (hbody : m.body = (b ++
      List.replicate (alignTo b.length 4 - b.length) 0) ++
      (encU32 s.length ++ (s ++ [0])))
    (hz : s.all (fun x => x ≠ 0) = true)
    (hv : (if t = SD_BUS_TYPE_OBJECT_PATH then object_path_is_valid s
           else utf8_is_valid s) = true)
    (hlt : s.length < POW32) :
    sd_bus_message_read_basic m t =
      some ({ m with
          rindex := alignTo b.length 4 + 4 + (s.length + 1)
          root_container := ⟨0, sig ++ [t], sig.length + 1, none, 0⟩ }, 1,
        some (BasicVal.str s)) := by
  have hplen : (b ++ List.replicate (alignTo b.length 4 - b.length) 0).length =
      alignTo b.length 4 := by
    have := le_alignTo b.length 4 (by omega)
    simp
    omega
  have hgc : message_get_container m = ⟨0, sig ++ [t], sig.length, none, 0⟩ := by
    simp [message_get_container, hc, hroot]
  have hsigat : sigAt (⟨0, sig ++ [t], sig.length, none, 0⟩ : BusContainer) = t := by
    simp only [sigAt]
    rw [getByte_append_zero]
    with_unfolding_all rfl
  have hpeek1 := message_peek_body_gen m b 4 4 (encU32 s.length ++ (s ++ [0])) hc
    (by rw [hroot]) hbody (by omega) (by simp [encU32])
  have hlval : BUS_MESSAGE_BSWAP32 m (readU32le m.body (alignTo b.length 4)) =
      s.length := by
    have h0 := readU32le_append_zero
      (b ++ List.replicate (alignTo b.length 4 - b.length) 0)
      (encU32 s.length ++ (s ++ [0]))
    rw [hplen] at h0
    rw [hbody, h0, readU32le_encU32_append]
    simp [BUS_MESSAGE_BSWAP32, hbw, Nat.mod_eq_of_lt hlt]
  have hblen2 : m.body.length = alignTo b.length 4 + (4 + (s.length + 1)) := by
    rw [hbody]
    simp only [List.length_append, hplen]
    simp [encU32]
  have hpeek2 := message_peek_body_one m (alignTo b.length 4 + 4) (s.length + 1)
    hc (by rw [hroot]) (by rw [hblen2]; omega)
  have hpl2 : ((b ++ List.replicate (alignTo b.length 4 - b.length) 0) ++
      encU32 s.length).length = alignTo b.length 4 + 4 := by
    rw [List.length_append, hplen, encU32_length]
  have hsub : subBytes m.body (alignTo b.length 4 + 4) (s.length + 1) =
      s ++ [0] := by
    rw [hbody, ← List.append_assoc]
    unfold subBytes
    rw [← hpl2, List.drop_left]
    have h1 : (s ++ [0]).length = s.length + 1 := by simp
    rw [← h1, List.take_length]
  have hvn : validate_nul (s ++ [0]) s.length = true := by
    unfold validate_nul
    rw [List.take_left, hz]
    have hg : getByte (s ++ [0]) s.length = 0 := by
      simp [getByte, List.getD_append_right]
    rw [hg]
    simp
  rcases ht with rfl | rfl
  · rw [if_neg (by decide)] at hv
    have hvs : validate_string (s ++ [0]) s.length = true := by
      unfold validate_string
      rw [hvn, List.take_left, hv]
      rfl
    simp only [sd_bus_message_read_basic]
    rw [if_neg (by simp [hs]), if_neg (by decide)]
    rw [hgc, hsigat]
    rw [if_neg (by decide), if_neg (by simp), if_pos (by decide)]
    rw [hri, hpeek1]
    dsimp only
    rw [if_neg (by decide)]
    rw [hlval, hpeek2]
    dsimp only
    rw [if_neg (by decide), if_neg (by decide)]
    rw [hsub]
    rw [if_neg (by decide)]
    rw [if_neg (by simp [hvs])]
    rw [List.take_left]
    rw [if_pos (by decide)]
    simp [message_set_container, hc]
  · rw [if_pos rfl] at hv
    have hvo : validate_object_path (s ++ [0]) s.length = true := by
      unfold validate_object_path
      rw [hvn, List.take_left, hv]
      rfl
    simp only [sd_bus_message_read_basic]
    rw [if_neg (by simp [hs]), if_neg (by decide)]
    rw [hgc, hsigat]
    rw [if_neg (by decide), if_neg (by simp), if_pos (by decide)]
    rw [hri, hpeek1]
    dsimp only
    rw [if_neg (by decide)]
    rw [hlval, hpeek2]
    dsimp only
    rw [if_neg (by decide), if_neg (by decide)]
    rw [hsub]
    rw [if_pos (by decide)]
    rw [if_neg (by simp [hvo])]
    rw [List.take_left]
    rw [if_pos (by decide)]
    simp [message_set_container, hc]

/-- Reading a SIGNATURE written by `message_append_basic` fails: the
one-too-large length prefix makes the second peek overrun the body. -/
theorem read_at_sig_fail (m : Message) (sig : List Nat) (s b : List Nat)
    (hs : m.sealed = true) (hc : m.containers = [])
    (hroot : m.root_container =
      ⟨0, sig ++ [SD_BUS_TYPE_SIGNATURE], sig.length, none, 0⟩)
    (hri : m.rindex = b.length)
    (hbody : m.body = b ++ ([s.length + 1] ++ s ++ [0])) :
    sd_bus_message_read_basic m SD_BUS_TYPE_SIGNATURE =
      some (m, - EBADMSG, none) := by
  have hgc : message_get_container m =
      ⟨0, sig ++ [SD_BUS_TYPE_SIGNATURE], sig.length, none, 0⟩ := by
    simp [message_get_container, hc, hroot]
  have hsigat : sigAt
      (⟨0, sig ++ [SD_BUS_TYPE_SIGNATURE], sig.length, none, 0⟩ :
        BusContainer) = SD_BUS_TYPE_SIGNATURE := by
    simp only [sigAt]
    rw [getByte_append_zero]
    with_unfolding_all rfl
  have hblen : m.body.length = b.length + (s.length + 2) := by
    rw [hbody]
    simp

  have hpeek1 := message_peek_body_one m b.length 1 hc (by rw [hroot])
    (by rw [hblen]; omega)
  have hgb : getByte m.body b.length = s.length + 1 := by
    rw [hbody, getByte_append_zero]
    with_unfolding_all rfl
  have hpeek2 := message_peek_body_one_fail m (b.length + 1) (s.length + 1 + 1)
    hc (by rw [hroot]) (by rw [hblen]; omega)
  simp only [sd_bus_message_read_basic]
  rw [if_neg (by simp [hs]), if_neg (by decide)]
  rw [hgc, hsigat]
  rw [if_neg (by decide), if_neg (by simp), if_neg (by decide),
    if_pos (by decide)]
  rw [hri, hpeek1]
  dsimp only
  rw [if_neg (by decide)]
  rw [hgb, hpeek2]
  dsimp only
  rw [if_pos (by decide)]

/-- Reading a UNIX_FD crashes: the decode switch has no case for it. -/
theorem read_at_fd (m : Message) (sig : List Nat) (v : Nat) (b : List Nat)
    (hs : m.sealed = true) (hc : m.containers = [])
    (hroot : m.root_container =
      ⟨0, sig ++ [SD_BUS_TYPE_UNIX_FD], sig.length, none, 0⟩)
    (hri : m.rindex = b.length)
    (hbody : m.body = (b ++
      List.replicate (alignTo b.length 4 - b.length) 0) ++ encU32 v) :
    sd_bus_message_read_basic m SD_BUS_TYPE_UNIX_FD = none := by
  have hgc : message_get_container m =
      ⟨0, sig ++ [SD_BUS_TYPE_UNIX_FD], sig.length, none, 0⟩ := by
    simp [message_get_container, hc, hroot]
  have hsigat : sigAt
      (⟨0, sig ++ [SD_BUS_TYPE_UNIX_FD], sig.length, none, 0⟩ :
        BusContainer) = SD_BUS_TYPE_UNIX_FD := by
    simp only [sigAt]
    rw [getByte_append_zero]
    with_unfolding_all rfl
  have hpeek := message_peek_body_gen m b 4 4 (encU32 v) hc (by rw [hroot])
    hbody (by omega) (by simp [encU32])
  simp only [sd_bus_message_read_basic]
  rw [if_neg (by simp [hs]), if_neg (by decide)]
  rw [hgc, hsigat]
  rw [if_neg (by decide), if_neg (by simp), if_neg (by decide),
    if_neg (by decide)]
  rw [hri]
  rw [show (bus_type_get_alignment SD_BUS_TYPE_UNIX_FD).toNat = 4 from by decide,
    show (bus_type_get_size SD_BUS_TYPE_UNIX_FD).toNat = 4 from by decide]
  rw [hpeek]
  dsimp only
  rw [if_neg (by decide)]
  rw [if_neg (by decide), if_neg (by decide), if_neg (by decide),
    if_neg (by decide), if_neg (by decide)]

/-- Round trip of one BYTE appended at the root cursor of an arbitrary
unsealed little-endian message with no open containers. -/
theorem rt_at_byte (m : Message) (sig : List Nat) (v serial : Nat)
    (hs : m.sealed = false) (hbw : m.bswap = false) (hc : m.containers = [])
    (hroot : m.root_container = ⟨0, sig, sig.length, none, 0⟩)
    (h255 : sig.length + 1 ≤ 255)
    (hfsz : alignTo m.fields.length 8 + (4 + 1 + (sig.length + 1) + 1) + 16 ≤
      UINT32MAX)
    (hbsz : m.body.length + 1 ≤ UINT32MAX) :
    round_trip_at m SD_BUS_TYPE_BYTE (some (BasicVal.num v)) serial =
      RTRes.read 1 (some (BasicVal.num (v % 256))) := by
  obtain ⟨m1, happ, h1s, h1bw, h1c, h1f, h1fd, h1root, h1body⟩ :=
    append_extend_exists m SD_BUS_TYPE_BYTE (some (BasicVal.num v)) sig 1 1
      [v % 256] (by decide) hs hc hroot (by simp)
      (by with_unfolding_all rfl) rfl (by decide)
      (by rw [alignTo_one]; exact hbsz)
  rw [alignTo_one, Nat.sub_self] at h1body
  simp only [List.replicate_zero, List.append_nil] at h1body
  obtain ⟨m2, hseal, h2s, h2bw, h2c, h2root, h2body⟩ :=
    seal_ok_exists m1 serial (h1s.trans hs) h1c
      (by rw [h1root]; simp) (by rw [h1root]; simpa using h255)
      (by rw [h1f, h1root]; simpa using hfsz)
  have hread := read_at_byte
    ({ m2 with
        root_container := { m2.root_container with index := m.root_container.index }
        rindex := m.body.length }) sig v m.body
    (by simp [h2s]) (by simp [h2c])
    (by simp [h2root, h1root, hroot]) rfl
    (by simp [h2body, h1body])
  unfold round_trip_at
  rw [happ]
  dsimp only
  rw [if_neg (by decide)]
  rw [hseal]
  dsimp only
  rw [if_neg (by decide)]
  rw [hread]

/-- Round trip of one BOOLEAN appended at the root cursor: the stored
and returned value is the input coerced to 0 or 1. -/
theorem rt_at_bool (m : Message) (sig : List Nat) (v serial : Nat)
    (hs : m.sealed = false) (hbw : m.bswap = false) (hc : m.containers = [])
    (hroot : m.root_container = ⟨0, sig, sig.length, none, 0⟩)
    (h255 : sig.length + 1 ≤ 255)
    (hfsz : alignTo m.fields.length 8 + (4 + 1 + (sig.length + 1) + 1) + 16 ≤
      UINT32MAX)
    (hbsz : alignTo m.body.length 4 + 4 ≤ UINT32MAX) :
    round_trip_at m SD_BUS_TYPE_BOOLEAN (some (BasicVal.num v)) serial =
      RTRes.read 1 (some (BasicVal.num (if v % POW32 ≠ 0 then 1 else 0))) := by
  obtain ⟨m1, happ, h1s, h1bw, h1c, h1f, h1fd, h1root, h1body⟩ :=
    append_extend_exists m SD_BUS_TYPE_BOOLEAN (some (BasicVal.num v)) sig 4 4
      (encU32 (if v % POW32 ≠ 0 then 1 else 0)) (by decide) hs hc hroot
      (by simp) (by with_unfolding_all rfl) (encU32_length _) (by decide) hbsz
  obtain ⟨m2, hseal, h2s, h2bw, h2c, h2root, h2body⟩ :=
    seal_ok_exists m1 serial (h1s.trans hs) h1c
      (by rw [h1root]; simp) (by rw [h1root]; simpa using h255)
      (by rw [h1f, h1root]; simpa using hfsz)
  have hread := read_at_bool
    ({ m2 with
        root_container := { m2.root_container with index := m.root_container.index }
        rindex := m.body.length }) sig (if v % POW32 ≠ 0 then 1 else 0) m.body
    (by simp [h2s]) (by simp [h2bw, h1bw, hbw]) (by simp [h2c])
    (by simp [h2root, h1root, hroot]) rfl
    (by simp [h2body, h1body])
  unfold round_trip_at
  rw [happ]
  dsimp only
  rw [if_neg (by decide)]
  rw [hseal]
  dsimp only
  rw [if_neg (by decide)]
  rw [hread]
  have h1m : (1 : Nat) % POW32 = 1 := by decide
  by_cases hv : v % POW32 = 0 <;> simp [hv, h1m]

/-- Round trip of one INT16/UINT16 appended at the root cursor: the
value is returned truncated to 16 bits. -/
theorem rt_at_fixed16 (m : Message) (sig : List Nat) (t v serial : Nat)
    (ht : t = SD_BUS_TYPE_INT16 ∨ t = SD_BUS_TYPE_UINT16)
    (hs : m.sealed = false) (hbw : m.bswap = false) (hc : m.containers = [])
    (hroot : m.root_container = ⟨0, sig, sig.length, none, 0⟩)
    (h255 : sig.length + 1 ≤ 255)
    (hfsz : alignTo m.fields.length 8 + (4 + 1 + (sig.length + 1) + 1) + 16 ≤
      UINT32MAX)
    (hbsz : alignTo m.body.length 2 + 2 ≤ UINT32MAX) :
    round_trip_at m t (some (BasicVal.num v)) serial =
      RTRes.read 1 (some (BasicVal.num (v % 65536))) := by
  obtain ⟨m1, happ, h1s, h1bw, h1c, h1f, h1fd, h1root, h1body⟩ :=
    append_extend_exists m t (some (BasicVal.num v)) sig 2 2 (encU16 v)
      (by rcases ht with rfl | rfl <;> decide) hs hc hroot (by simp)
      (by rcases ht with rfl | rfl <;> with_unfolding_all rfl) rfl
      (by decide) hbsz
  obtain ⟨m2, hseal, h2s, h2bw, h2c, h2root, h2body⟩ :=
    seal_ok_exists m1 serial (h1s.trans hs) h1c
      (by rw [h1root]; simp) (by rw [h1root]; simpa using h255)
      (by rw [h1f, h1root]; simpa using hfsz)
  have hread := read_at_fixed16
    ({ m2 with
        root_container := { m2.root_container with index := m.root_container.index }
        rindex := m.body.length }) sig t v m.body ht
    (by simp [h2s]) (by simp [h2bw, h1bw, hbw]) (by simp [h2c])
    (by simp [h2root, h1root, hroot]) rfl
    (by simp [h2body, h1body])
  unfold round_trip_at
  rw [happ]
  dsimp only
  rw [if_neg (by decide)]
  rw [hseal]
  dsimp only
  rw [if_neg (by decide)]
  rw [hread]

/-- Round trip of one INT32/UINT32 appended at the root cursor: the
value is returned truncated to 32 bits. -/
theorem rt_at_fixed32 (m : Message) (sig : List Nat) (t v serial : Nat)
    (ht : t = SD_BUS_TYPE_INT32 ∨ t = SD_BUS_TYPE_UINT32)
    (hs : m.sealed = false) (hbw : m.bswap = false) (hc : m.containers = [])
    (hroot : m.root_container = ⟨0, sig, sig.length, none, 0⟩)
    (h255 : sig.length + 1 ≤ 255)
    (hfsz : alignTo m.fields.length 8 + (4 + 1 + (sig.length + 1) + 1) + 16 ≤
      UINT32MAX)
    (hbsz : alignTo m.body.length 4 + 4 ≤ UINT32MAX) :
    round_trip_at m t (some (BasicVal.num v)) serial =
      RTRes.read 1 (some (BasicVal.num (v % POW32))) := by
  obtain ⟨m1, happ, h1s, h1bw, h1c, h1f, h1fd, h1root, h1body⟩ :=
    append_extend_exists m t (some (BasicVal.num v)) sig 4 4 (encU32 v)
      (by rcases ht with rfl | rfl <;> decide) hs hc hroot (by simp)
      (by rcases ht with rfl | rfl <;> with_unfolding_all rfl)
      (encU32_length _) (by decide) hbsz
  obtain ⟨m2, hseal, h2s, h2bw, h2c, h2root, h2body⟩ :=
    seal_ok_exists m1 serial (h1s.trans hs) h1c
      (by rw [h1root]; simp) (by rw [h1root]; simpa using h255)
      (by rw [h1f, h1root]; simpa using hfsz)
  have hread := read_at_fixed32
    ({ m2 with
        root_container := { m2.root_container with index := m.root_container.index }
        rindex := m.body.length }) sig t v m.body ht
    (by simp [h2s]) (by simp [h2bw, h1bw, hbw]) (by simp [h2c])
    (by simp [h2root, h1root, hroot]) rfl
    (by simp [h2body, h1body])
  unfold round_trip_at
  rw [happ]
  dsimp only
  rw [if_neg (by decide)]
  rw [hseal]
  dsimp only
  rw [if_neg (by decide)]
  rw [hread]

/-- Round trip of one INT64/UINT64/DOUBLE appended at the root cursor:
the value is returned truncated to 64 bits. -/
theorem rt_at_fixed64 (m : Message) (sig : List Nat) (t v serial : Nat)
    (ht : t = SD_BUS_TYPE_INT64 ∨ t = SD_BUS_TYPE_UINT64 ∨
      t = SD_BUS_TYPE_DOUBLE)
    (hs : m.sealed = false) (hbw : m.bswap = false) (hc : m.containers = [])
    (hroot : m.root_container = ⟨0, sig, sig.length, none, 0⟩)
    (h255 : sig.length + 1 ≤ 255)
    (hfsz : alignTo m.fields.length 8 + (4 + 1 + (sig.length + 1) + 1) + 16 ≤
      UINT32MAX)
    (hbsz : alignTo m.body.length 8 + 8 ≤ UINT32MAX) :
    round_trip_at m t (some (BasicVal.num v)) serial =
      RTRes.read 1 (some (BasicVal.num (v % 18446744073709551616))) := by
  obtain ⟨m1, happ, h1s, h1bw, h1c, h1f, h1fd, h1root, h1body⟩ :=
    append_extend_exists m t (some (BasicVal.num v)) sig 8 8 (encU64 v)
      (by rcases ht with rfl | rfl | rfl <;> decide) hs hc hroot (by simp)
      (by rcases ht with rfl | rfl | rfl <;> with_unfolding_all rfl)
      (by with_unfolding_all rfl) (by decide) hbsz
  obtain ⟨m2, hseal, h2s, h2bw, h2c, h2root, h2body⟩ :=
    seal_ok_exists m1 serial (h1s.trans hs) h1c
      (by rw [h1root]; simp) (by rw [h1root]; simpa using h255)
      (by rw [h1f, h1root]; simpa using hfsz)
  have hread := read_at_fixed64
    ({ m2 with
        root_container := { m2.root_container with index := m.root_container.index }
        rindex := m.body.length }) sig t v m.body ht
    (by simp [h2s]) (by simp [h2bw, h1bw, hbw]) (by simp [h2c])
    (by simp [h2root, h1root, hroot]) rfl
    (by simp [h2body, h1body])
  unfold round_trip_at
  rw [happ]
  dsimp only
  rw [if_neg (by decide)]
  rw [hseal]
  dsimp only
  rw [if_neg (by decide)]
  rw [hread]

/-- Round trip of one STRING/OBJECT_PATH appended at the root cursor:
a NUL-free value that is valid for its type is returned unchanged. -/
theorem rt_at_str (m : Message) (sig : List Nat) (t : Nat) (s : List Nat)
    (serial : Nat)
    (ht : t = SD_BUS_TYPE_STRING ∨ t = SD_BUS_TYPE_OBJECT_PATH)
    (hs : m.sealed = false) (hbw : m.bswap = false) (hc : m.containers = [])
    (hroot : m.root_container = ⟨0, sig, sig.length, none, 0⟩)
    (h255 : sig.length + 1 ≤ 255)
    (hfsz : alignTo m.fields.length 8 + (4 + 1 + (sig.length + 1) + 1) + 16 ≤
      UINT32MAX)
    (hbsz : alignTo m.body.length 4 + (4 + s.length + 1) ≤ UINT32MAX)
    (hz : s.all (fun x => x ≠ 0) = true)
    (hv : (if t = SD_BUS_TYPE_OBJECT_PATH then object_path_is_valid s
           else utf8_is_valid s) = true)
    (hlt : s.length < POW32) :
    round_trip_at m t (some (BasicVal.str s)) serial =
      RTRes.read 1 (some (BasicVal.str s)) := by
  obtain ⟨m1, happ, h1s, h1bw, h1c, h1f, h1fd, h1root, h1body⟩ :=
    append_extend_exists m t (some (BasicVal.str s)) sig 4 (4 + s.length + 1)
      (encU32 s.length ++ s ++ [0])
      (by rcases ht with rfl | rfl <;> decide) hs hc hroot (by simp)
      (by rcases ht with rfl | rfl <;> with_unfolding_all rfl)
      (by simp [encU32_length]; omega) (by decide) hbsz
  rw [List.append_assoc (encU32 s.length) s [0]] at h1body
  obtain ⟨m2, hseal, h2s, h2bw, h2c, h2root, h2body⟩ :=
    seal_ok_exists m1 serial (h1s.trans hs) h1c
      (by rw [h1root]; simp) (by rw [h1root]; simpa using h255)
      (by rw [h1f, h1root]; simpa using hfsz)
  have hread := read_at_str
    ({ m2 with
        root_container := { m2.root_container with index := m.root_container.index }
        rindex := m.body.length }) sig t s m.body ht
    (by simp [h2s]) (by simp [h2bw, h1bw, hbw]) (by simp [h2c])
    (by simp [h2root, h1root, hroot]) rfl
    (by simp [h2body, h1body]) hz hv hlt
  unfold round_trip_at
  rw [happ]
  dsimp only
  rw [if_neg (by decide)]
  rw [hseal]
  dsimp only
  rw [if_neg (by decide)]
  rw [hread]

/-- A SIGNATURE value appended at the root cursor of an arbitrary
unsealed message reads back as malformed-message: the writer stores
the string length plus one in the one-byte length prefix. -/
theorem rt_at_sig (m : Message) (sig : List Nat) (s : List Nat) (serial : Nat)
    (hs : m.sealed = false) (hbw : m.bswap = false) (hc : m.containers = [])
    (hroot : m.root_container = ⟨0, sig, sig.length, none, 0⟩)
    (h255 : sig.length + 1 ≤ 255)
    (hfsz : alignTo m.fields.length 8 + (4 + 1 + (sig.length + 1) + 1) + 16 ≤
      UINT32MAX)
    (hbsz : m.body.length + (1 + s.length + 1) ≤ UINT32MAX)
    (hslen : s.length ≤ 254) :
    round_trip_at m SD_BUS_TYPE_SIGNATURE (some (BasicVal.str s)) serial =
      RTRes.read (- EBADMSG) none := by
  obtain ⟨m1, happ, h1s, h1bw, h1c, h1f, h1fd, h1root, h1body⟩ :=
    append_extend_exists m SD_BUS_TYPE_SIGNATURE (some (BasicVal.str s)) sig 1
      (1 + s.length + 1) ([(1 + s.length + 1 - 1) % 256] ++ s ++ [0])
      (by decide) hs hc hroot (by simp) (by with_unfolding_all rfl)
      (by simp; omega) (by decide)
      (by rw [alignTo_one]; exact hbsz)
  rw [alignTo_one, Nat.sub_self] at h1body
  simp only [List.replicate_zero, List.append_nil] at h1body
  rw [show (1 + s.length + 1 - 1) % 256 = s.length + 1 from by omega] at h1body
  obtain ⟨m2, hseal, h2s, h2bw, h2c, h2root, h2body⟩ :=
    seal_ok_exists m1 serial (h1s.trans hs) h1c
      (by rw [h1root]; simp) (by rw [h1root]; simpa using h255)
      (by rw [h1f, h1root]; simpa using hfsz)
  have hread := read_at_sig_fail
    ({ m2 with
        root_container := { m2.root_container with index := m.root_container.index }
        rindex := m.body.length }) sig s m.body
    (by simp [h2s]) (by simp [h2c])
    (by simp [h2root, h1root, hroot]) rfl
    (by simp [h2body, h1body])
  unfold round_trip_at
  rw [happ]
  dsimp only
  rw [if_neg (by decide)]
  rw [hseal]
  dsimp only
  rw [if_neg (by decide)]
  rw [hread]

/-- A UNIX_FD appended at the root cursor of an arbitrary unsealed
message makes the subsequent read crash: the decode switch of
`sd_bus_message_read_basic` has no UNIX_FD case. -/
theorem rt_at_fd (m : Message) (sig : List Nat) (v serial : Nat)
    (hs : m.sealed = false) (hbw : m.bswap = false) (hc : m.containers = [])
    (hroot : m.root_container = ⟨0, sig, sig.length, none, 0⟩)
    (h255 : sig.length + 1 ≤ 255)
    (hfsz : alignTo m.fields.length 8 + (4 + 1 + (sig.length + 1) + 1) + 16 ≤
      UINT32MAX)
    (hbsz : alignTo m.body.length 4 + 4 ≤ UINT32MAX) :
    round_trip_at m SD_BUS_TYPE_UNIX_FD (some (BasicVal.num v)) serial =
      RTRes.readCrash := by
  obtain ⟨m1, happ, h1s, h1bw, h1c, h1f, h1fd, h1root, h1body⟩ :=
    append_extend_exists m SD_BUS_TYPE_UNIX_FD (some (BasicVal.num v)) sig 4 4
      (encU32 v) (by decide) hs hc hroot (by simp) (by with_unfolding_all rfl)
      (encU32_length _) (by decide) hbsz
  obtain ⟨m2, hseal, h2s, h2bw, h2c, h2root, h2body⟩ :=
    seal_ok_exists m1 serial (h1s.trans hs) h1c
      (by rw [h1root]; simp) (by rw [h1root]; simpa using h255)
      (by rw [h1f, h1root]; simpa using hfsz)
  have hread := read_at_fd
    ({ m2 with
        root_container := { m2.root_container with index := m.root_container.index }
        rindex := m.body.length }) sig v m.body
    (by simp [h2s]) (by simp [h2c])
    (by simp [h2root, h1root, hroot]) rfl
    (by simp [h2body, h1body])
  unfold round_trip_at
  rw [happ]
  dsimp only
  rw [if_neg (by decide)]
  rw [hseal]
  dsimp only
  rw [if_neg (by decide)]
  rw [hread]

/-- C1: on every unsealed little-endian message with no open containers
and the root cursor at the end of the root signature (with the header
and body sizes representable), appending one basic value and reading it
back after sealing, with the cursor at that value, returns the original
value for BYTE, the fixed-width numerics (truncated to the wire width;
BOOLEAN coerced to 0/1) and NUL-free STRING/OBJECT_PATH values valid for
their type — but a SIGNATURE value reads back as malformed-message (the
writer stores strlen+1 in the one-byte length prefix) and a UNIX_FD
round trip crashes on read (the decode switch has no UNIX_FD case). -/
theorem c1_round_trip :
    (∀ (m : Message) (sig : List Nat) (v serial : Nat),
      m.sealed = false → m.bswap = false → m.containers = [] →
      m.root_container = ⟨0, sig, sig.length, none, 0⟩ →
      sig.length + 1 ≤ 255 →
      alignTo m.fields.length 8 + (4 + 1 + (sig.length + 1) + 1) + 16 ≤
        UINT32MAX →
      m.body.length + 1 ≤ UINT32MAX →
      round_trip_at m SD_BUS_TYPE_BYTE (some (BasicVal.num v)) serial =
        RTRes.read 1 (some (BasicVal.num (v % 256)))) ∧
    (∀ (m : Message) (sig : List Nat) (v serial : Nat),
      m.sealed = false → m.bswap = false → m.containers = [] →
      m.root_container = ⟨0, sig, sig.length, none, 0⟩ →
      sig.length + 1 ≤ 255 →
      alignTo m.fields.length 8 + (4 + 1 + (sig.length + 1) + 1) + 16 ≤
        UINT32MAX →
      alignTo m.body.length 4 + 4 ≤ UINT32MAX →
      round_trip_at m SD_BUS_TYPE_BOOLEAN (some (BasicVal.num v)) serial =
        RTRes.read 1 (some (BasicVal.num (if v % POW32 ≠ 0 then 1 else 0)))) ∧
    (∀ (m : Message) (sig : List Nat) (t v serial : Nat),
      t = SD_BUS_TYPE_INT16 ∨ t = SD_BUS_TYPE_UINT16 →
      m.sealed = false → m.bswap = false → m.containers = [] →
      m.root_container = ⟨0, sig, sig.length, none, 0⟩ →
      sig.length + 1 ≤ 255 →
      alignTo m.fields.length 8 + (4 + 1 + (sig.length + 1) + 1) + 16 ≤
        UINT32MAX →
      alignTo m.body.length 2 + 2 ≤ UINT32MAX →
      round_trip_at m t (some (BasicVal.num v)) serial =
        RTRes.read 1 (some (BasicVal.num (v % 65536)))) ∧
    (∀ (m : Message) (sig : List Nat) (t v serial : Nat),
      t = SD_BUS_TYPE_INT32 ∨ t = SD_BUS_TYPE_UINT32 →
      m.sealed = false → m.bswap = false → m.containers = [] →
      m.root_container = ⟨0, sig, sig.length, none, 0⟩ →
      sig.length + 1 ≤ 255 →
      alignTo m.fields.length 8 + (4 + 1 + (sig.length + 1) + 1) + 16 ≤
        UINT32MAX →
      alignTo m.body.length 4 + 4 ≤ UINT32MAX →
      round_trip_at m t (some (BasicVal.num v)) serial =
        RTRes.read 1 (some (BasicVal.num (v % POW32)))) ∧
    (∀ (m : Message) (sig : List Nat) (t v serial : Nat),
      t = SD_BUS_TYPE_INT64 ∨ t = SD_BUS_TYPE_UINT64 ∨
        t = SD_BUS_TYPE_DOUBLE →
      m.sealed = false → m.bswap = false → m.containers = [] →
      m.root_container = ⟨0, sig, sig.length, none, 0⟩ →
      sig.length + 1 ≤ 255 →
      alignTo m.fields.length 8 + (4 + 1 + (sig.length + 1) + 1) + 16 ≤
        UINT32MAX →
      alignTo m.body.length 8 + 8 ≤ UINT32MAX →
      round_trip_at m t (some (BasicVal.num v)) serial =
        RTRes.read 1 (some (BasicVal.num (v % 18446744073709551616)))) ∧
    (∀ (m : Message) (sig : List Nat) (t : Nat) (s : List Nat) (serial : Nat),
      t = SD_BUS_TYPE_STRING ∨ t = SD_BUS_TYPE_OBJECT_PATH →
      m.sealed = false → m.bswap = false → m.containers = [] →
      m.root_container = ⟨0, sig, sig.length, none, 0⟩ →
      sig.length + 1 ≤ 255 →
      alignTo m.fields.length 8 + (4 + 1 + (sig.length + 1) + 1) + 16 ≤
        UINT32MAX →
      alignTo m.body.length 4 + (4 + s.length + 1) ≤ UINT32MAX →
      s.all (fun x => x ≠ 0) = true →
      (if t = SD_BUS_TYPE_OBJECT_PATH then object_path_is_valid s
       else utf8_is_valid s) = true →
      s.length < POW32 →
      round_trip_at m t (some (BasicVal.str s)) serial =
        RTRes.read 1 (some (BasicVal.str s))) ∧
    (∀ (m : Message) (sig s : List Nat) (serial : Nat),
      m.sealed = false → m.bswap = false → m.containers = [] →
      m.root_container = ⟨0, sig, sig.length, none, 0⟩ →
      sig.length + 1 ≤ 255 →
      alignTo m.fields.length 8 + (4 + 1 + (sig.length + 1) + 1) + 16 ≤
        UINT32MAX →
      m.body.length + (1 + s.length + 1) ≤ UINT32MAX →
      s.length ≤ 254 →
      round_trip_at m SD_BUS_TYPE_SIGNATURE (some (BasicVal.str s)) serial =
        RTRes.read (- EBADMSG) none) ∧
    (∀ (m : Message) (sig : List Nat) (v serial : Nat),
      m.sealed = false → m.bswap = false → m.containers = [] →
      m.root_container = ⟨0, sig, sig.length, none, 0⟩ →
      sig.length + 1 ≤ 255 →
      alignTo m.fields.length 8 + (4 + 1 + (sig.length + 1) + 1) + 16 ≤
        UINT32MAX →
      alignTo m.body.length 4 + 4 ≤ UINT32MAX →
      round_trip_at m SD_BUS_TYPE_UNIX_FD (some (BasicVal.num v)) serial =
        RTRes.readCrash) :=
  ⟨fun m sig v serial hs hbw hc hroot h255 hfsz hbsz =>
      rt_at_byte m sig v serial hs hbw hc hroot h255 hfsz hbsz,
   fun m sig v serial hs hbw hc hroot h255 hfsz hbsz =>
      rt_at_bool m sig v serial hs hbw hc hroot h255 hfsz hbsz,
   fun m sig t v serial ht hs hbw hc hroot h255 hfsz hbsz =>
      rt_at_fixed16 m sig t v serial ht hs hbw hc hroot h255 hfsz hbsz,
   fun m sig t v serial ht hs hbw hc hroot h255 hfsz hbsz =>
      rt_at_fixed32 m sig t v serial ht hs hbw hc hroot h255 hfsz hbsz,
   fun m sig t v serial ht hs hbw hc hroot h255 hfsz hbsz =>
      rt_at_fixed64 m sig t v serial ht hs hbw hc hroot h255 hfsz hbsz,
   fun m sig t s serial ht hs hbw hc hroot h255 hfsz hbsz hz hv hlt =>
      rt_at_str m sig t s serial ht hs hbw hc hroot h255 hfsz hbsz hz hv hlt,
   fun m sig s serial hs hbw hc hroot h255 hfsz hbsz hslen =>
      rt_at_sig m sig s serial hs hbw hc hroot h255 hfsz hbsz hslen,
   fun m sig v serial hs hbw hc hroot h255 hfsz hbsz =>
      rt_at_fd m sig v serial hs hbw hc hroot h255 hfsz hbsz⟩

/-- Counterexample to C1 as originally stated: on a fresh message a
SIGNATURE value appends successfully but reads back as
malformed-message, and a UNIX_FD appends successfully but the read
crashes. -/
theorem c1_counterexample :
    round_trip_at (message_new SD_BUS_MESSAGE_TYPE_METHOD_CALL)
      SD_BUS_TYPE_SIGNATURE (some (BasicVal.str [105])) 1 =
      RTRes.read (- EBADMSG) none ∧
    round_trip_at (message_new SD_BUS_MESSAGE_TYPE_METHOD_CALL)
      SD_BUS_TYPE_UNIX_FD (some (BasicVal.num 3)) 1 = RTRes.readCrash := by
  constructor <;> decide

/-- Witness for the C1 theorem: a STRING round trip on a non-fresh
unsealed message whose body already holds a UINT32 and whose root
signature is "u". -/
theorem c1_witness :
    round_trip_at
      { message_new SD_BUS_MESSAGE_TYPE_METHOD_CALL with
        body := [7, 0, 0, 0]
        root_container := ⟨0, [SD_BUS_TYPE_UINT32], 1, none, 0⟩ }
      SD_BUS_TYPE_STRING (some (BasicVal.str [104, 105])) 5 =
      RTRes.read 1 (some (BasicVal.str [104, 105])) :=
  c1_round_trip.2.2.2.2.2.1
    { message_new SD_BUS_MESSAGE_TYPE_METHOD_CALL with
      body := [7, 0, 0, 0]
      root_container := ⟨0, [SD_BUS_TYPE_UINT32], 1, none, 0⟩ }
    [SD_BUS_TYPE_UINT32] SD_BUS_TYPE_STRING [104, 105] 5 (Or.inl rfl)
    rfl rfl rfl rfl (by decide) (by decide) (by decide) (by decide)
    (by decide) (by decide)

end BusMessage
